import Mathlib

/-!
Verification development for the libucl configuration-language library.

The C sources under scrutiny are `src/ucl_parser.c`, `src/ucl_schema.c`,
`src/ucl_hash.c`, `src/ucl_emitter.c`, `src/ucl_util.c` together with the
headers `include/ucl.h`, `src/ucl_internal.h`, `src/ucl_hash.h`.  Each
definition below is a shallow embedding of one C function (the doc comment
names it); machine integers are modelled as `Int`/`Nat`, C `double` values
as exact rationals `ℚ`, byte buffers as `List Nat`, and the in-place
mutation of the parser/object graph as explicit state passing over an
arena (`List ObjData`).  A few helpers that the repository declares but
whose defining translation unit is absent from the source tree
(`ucl_object_new`, `ucl_iterate_object`, `ucl_object_find_key`,
`ucl_object_compare`, the character classification table
`ucl_chartable.h`, libc regex) are modelled from the specification; their
doc comments start with "Modelled from the spec".
-/

set_option maxRecDepth 10000
set_option maxHeartbeats 1000000
set_option linter.unusedVariables false
set_option linter.unreachableTactic false
set_option linter.unusedTactic false
set_option linter.unnecessarySeqFocus false

/-- A byte of input, 0..255 (the C `unsigned char`). -/
abbrev Byte := Nat

/-- Byte string literals, written as lists of characters. -/
def cstr (cs : List Char) : List Byte :=
  cs.map Char.toNat

/-- C `tolower` for ASCII bytes. -/
def c_tolower (b : Byte) : Byte :=
  if 65 ≤ b ∧ b ≤ 90 then b + 32 else b

/-- C `isdigit`. -/
def c_isdigit (b : Byte) : Bool :=
  decide (48 ≤ b ∧ b ≤ 57)

/-- C `isxdigit`. -/
def c_isxdigit (b : Byte) : Bool :=
  c_isdigit b || decide (97 ≤ b ∧ b ≤ 102) || decide (65 ≤ b ∧ b ≤ 70)

/-- C `isalpha` (ASCII). -/
def c_isalpha (b : Byte) : Bool :=
  decide (65 ≤ b ∧ b ≤ 90) || decide (97 ≤ b ∧ b ≤ 122)

/-- C `isspace` (ASCII): space, \t, \n, \v, \f, \r. -/
def c_isspace (b : Byte) : Bool :=
  b == 32 || b == 9 || b == 10 || b == 11 || b == 12 || b == 13

/-!
Character classification.  The compile-time table `ucl_chartable.h` is
included by `ucl_parser.c` but is not among the repository's source files,
so the classes are modelled from the spec (§4.1) and from how the parser
uses them: whitespace is space and tab; unsafe whitespace additionally \n
and \r; a value ends at `;`, `,`, `\n`, `}` or `]`; a key starts with an
alphanumeric byte, `/` or `_` (comment in `ucl_parse_key`); a key body
additionally allows `-` and `.`; a key separator is whitespace, `\n`,
`=`, `:` or `{`; a number may start with a digit or `-`; the escapable
bytes after a backslash are `" \\ / b f n r t u`; the JSON-unsafe bytes
are `"`, `\\` and the control bytes the emitter escapes.
-/

/-- Modelled from the spec: UCL_CHARACTER_WHITESPACE. -/
def ucl_test_whitespace (b : Byte) : Bool :=
  b == 32 || b == 9

/-- Modelled from the spec: UCL_CHARACTER_WHITESPACE_UNSAFE. -/
def ucl_test_whitespace_unsafe (b : Byte) : Bool :=
  b == 32 || b == 9 || b == 10 || b == 13

/-- Modelled from the spec: UCL_CHARACTER_VALUE_END (`;`, `,`, `\n`, `}`, `]`). -/
def ucl_test_value_end (b : Byte) : Bool :=
  b == 59 || b == 44 || b == 10 || b == 125 || b == 93

/-- Modelled from the spec: UCL_CHARACTER_KEY_START (alphanumeric, `/`, `_`). -/
def ucl_test_key_start (b : Byte) : Bool :=
  c_isalpha b || c_isdigit b || b == 47 || b == 95

/-- Modelled from the spec: UCL_CHARACTER_KEY (key body bytes). -/
def ucl_test_key (b : Byte) : Bool :=
  ucl_test_key_start b || b == 45 || b == 46

/-- Modelled from the spec: UCL_CHARACTER_KEY_SEP. -/
def ucl_test_key_sep (b : Byte) : Bool :=
  b == 32 || b == 9 || b == 10 || b == 61 || b == 58 || b == 123

/-- Modelled from the spec: UCL_CHARACTER_VALUE_DIGIT_START (digit or `-`). -/
def ucl_test_digit_start (b : Byte) : Bool :=
  c_isdigit b || b == 45

/-- Modelled from the spec: UCL_CHARACTER_ESCAPE (`"`, `\\`, `/`, b, f, n, r, t, u). -/
def ucl_test_escape (b : Byte) : Bool :=
  b == 34 || b == 92 || b == 47 || b == 98 || b == 102 || b == 110 ||
    b == 114 || b == 116 || b == 117

/-- Modelled from the spec: UCL_CHARACTER_JSON_UNSAFE. -/
def ucl_test_json_unsafe (b : Byte) : Bool :=
  b == 34 || b == 92 || b == 8 || b == 9 || b == 10 || b == 13 || b == 12

/-- The value variant tags, `ucl_type_t` of `include/ucl.h` (same order). -/
inductive UclType where
  | object
  | array
  | int
  | float
  | str
  | boolean
  | time
  | userdata
  | null
deriving DecidableEq, Repr

/-- The distinct error messages produced by the embedded code paths; the C
code builds printf strings, the model keeps which message was produced
(`ucl_create_err` keeps only the first error, see `ucl_set_err`). -/
inductive UclErrMsg where
  | unexpectedNewline
  | unexpectedControlChar
  | unfinishedEscape
  | invalidUtfEscape
  | invalidEscapeChar
  | commentsNested
  | outOfRange
  | wrongExpChar
  | keyBeginLetter
  | invalidKeyChar
  | unfinishedKey
  | unexpectedEq
  | unexpectedColon
  | unfinishedValue
  | untermMultiline
  | emptyStringValue
  | unexpectedBrace
  | unexpectedTermination
  | delimiterMissing
  | unknownMacroName
  | maxNestingReached
  | invalidParserState
  | cannotOpenFile
deriving DecidableEq, Repr

/-- `ucl_set_err` / `ucl_create_err`: an error is recorded only when no
earlier error exists (`ucl_create_err` tests `*err == NULL`). -/
def ucl_set_err (e : Option UclErrMsg) (m : UclErrMsg) : Option UclErrMsg :=
  match e with
  | none => some m
  | some x => some x

/-- An input chunk, `struct ucl_chunk` of `ucl_internal.h`.  The C struct
holds `begin`, `end`, `pos`; the model keeps `rest`, the bytes from `pos`
to `end` (so `pos = end - rest.length`).  `line`, `column` and `remain`
are the separate bookkeeping fields the C code updates alongside `pos`;
they can go out of sync with `rest` exactly where the C code lets them. -/
structure UclChunk where
  rest : List Byte
  line : Nat
  column : Nat
  remain : Nat
deriving DecidableEq, Repr

/-- The byte at the cursor, `*p`. Reading past `end` is undefined in C;
the model reads 0 there. -/
def chHead (c : UclChunk) : Byte :=
  c.rest.headD 0

/-- The byte at offset `i` from the cursor, `p[i]` (0 past the end). -/
def chAt (c : UclChunk) (i : Nat) : Byte :=
  c.rest.getD i 0

/-- The macro `ucl_chunk_skipc`: advance one byte, updating line, column
and remain.  On an empty rest (the C code would read past the buffer) the
chunk is returned unchanged. -/
def ucl_chunk_skipc (c : UclChunk) : UclChunk :=
  match c.rest with
  | [] => c
  | b :: tl =>
    { rest := tl
      line := if b == 10 then c.line + 1 else c.line
      column := if b == 10 then 0 else c.column + 1
      remain := c.remain - 1 }

/-- `struct ucl_parser_saved_state`. -/
structure UclSavedState where
  line : Nat
  column : Nat
  remain : Nat
  rest : List Byte
deriving DecidableEq, Repr

/-- `ucl_chunk_save_state`: snapshot the full position tuple. -/
def ucl_chunk_save_state (c : UclChunk) : UclSavedState :=
  { line := c.line, column := c.column, remain := c.remain, rest := c.rest }

/-- `ucl_chunk_restore_state`: unconditional write-back of all four fields. -/
def ucl_chunk_restore_state (_c : UclChunk) (s : UclSavedState) : UclChunk :=
  { rest := s.rest, line := s.line, column := s.column, remain := s.remain }

/-- `ucl_lex_num_multiplier`: 1000/1000000/1000000000 for k/m/g, or the
1024-based multipliers when `is_bytes` (case-insensitive). -/
def ucl_lex_num_multiplier (c : Byte) (is_bytes : Bool) : Int :=
  if c_tolower c == 109 then (if is_bytes then 1048576 else 1000000)
  else if c_tolower c == 107 then (if is_bytes then 1024 else 1000)
  else if c_tolower c == 103 then (if is_bytes then 1073741824 else 1000000000)
  else 1

/-- `ucl_lex_time_multiplier`: the table in `ucl_parser.c` lines 199-205;
note the source computes the year entry as `60*60*24*7*365 = 220752000`
(a week times 365), not `60*60*24*365`. -/
def ucl_lex_time_multiplier (c : Byte) : ℚ :=
  if c_tolower c == 109 then 60
  else if c_tolower c == 104 then 3600
  else if c_tolower c == 100 then 86400
  else if c_tolower c == 119 then 604800
  else if c_tolower c == 121 then 220752000
  else 1

/-- `ucl_lex_is_atom_end`. -/
def ucl_lex_is_atom_end (b : Byte) : Bool :=
  ucl_test_value_end b

/-- `ucl_lex_is_comment`: `/*` or `#`. -/
def ucl_lex_is_comment (c1 c2 : Byte) : Bool :=
  (c1 == 47 && c2 == 42) || c1 == 35

/-- Value of a decimal digit string. -/
def digitsVal (ds : List Byte) : Nat :=
  ds.foldl (fun a b => a * 10 + (b - 48)) 0

/-- INT64_MAX. -/
def int64Max : Int := 9223372036854775807

/-- INT64_MIN. -/
def int64Min : Int := -9223372036854775808

/-- C `strtoimax(nptr, _, 10)`: skips whitespace, reads an optional sign
and decimal digits.  Returns (value, endptr-as-remaining-bytes, ERANGE);
on no conversion the value is 0 and `endptr` is the input; on overflow
the value saturates and ERANGE is set. -/
def strtoimaxModel (l : List Byte) : Int × List Byte × Bool :=
  let l1 := l.dropWhile c_isspace
  let sgn : Int := if l1.headD 0 == 45 then -1 else 1
  let l2 : List Byte :=
    if l1.headD 0 == 43 || l1.headD 0 == 45 then l1.tail else l1
  let ds := l2.takeWhile c_isdigit
  if ds.isEmpty then (0, l, false)
  else
    let v : Int := sgn * (digitsVal ds : Int)
    let r := l2.drop ds.length
    if v > int64Max then (int64Max, r, true)
    else if v < int64Min then (int64Min, r, true)
    else (v, r, false)

/-- The largest magnitude a C double can carry before overflowing to
infinity; the model flags ERANGE at `2^1024` (values are kept exact as
rationals, so rounding and gradual underflow are not modelled). -/
def dblOverflow : ℚ := (2 : ℚ) ^ (1024 : ℕ)

/-- C `strtod`: whitespace, optional sign, digits with an optional
fraction, an optional exponent (taken only when at least one exponent
digit follows).  Returns (exact rational value, endptr-as-remaining,
overflow flag).  Hex floats, inf and nan never reach this call site (the
scan loop admits only digits, `.`, `e`/`E` and signs). -/
def strtodModel (l : List Byte) : ℚ × List Byte × Bool :=
  let l1 := l.dropWhile c_isspace
  let sgn : ℚ := match l1 with
    | 45 :: _ => -1
    | _ => 1
  let l2 : List Byte := match l1 with
    | 43 :: t => t
    | 45 :: t => t
    | _ => l1
  let ip := l2.takeWhile c_isdigit
  let l3 := l2.drop ip.length
  let fp : List Byte := match l3 with
    | 46 :: t => t.takeWhile c_isdigit
    | _ => []
  let l4 : List Byte := match l3 with
    | 46 :: t => t.drop (t.takeWhile c_isdigit).length
    | _ => l3
  if ip.isEmpty ∧ fp.isEmpty then (0, l, false)
  else
    let ev : Int × List Byte := match l4 with
      | 101 :: t | 69 :: t =>
        let es : Int := match t with
          | 45 :: _ => -1
          | _ => 1
        let t2 : List Byte := match t with
          | 43 :: u => u
          | 45 :: u => u
          | _ => t
        let eds := t2.takeWhile c_isdigit
        if eds.isEmpty then (0, l4) else (es * (digitsVal eds : Int), t2.drop eds.length)
      | _ => (0, l4)
    let mant : ℚ := (digitsVal ip : ℚ) + (digitsVal fp : ℚ) / (10 : ℚ) ^ fp.length
    let v : ℚ := sgn * mant * (10 : ℚ) ^ ev.1
    (v, ev.2, decide (dblOverflow ≤ |v|))

/-- Truncation of a rational toward zero, the C `(int64_t)double` cast. -/
def ratTrunc (q : ℚ) : Int :=
  if q < 0 then -((-q).floor) else q.floor

/-- Result of `ucl_lex_number`'s digit/fraction/exponent scan loop
(`ucl_parser.c` lines 265-316).  Each constructor carries the chunk as the
loop left it; which of them restore the saved state is decided by
`ucl_lex_number` itself, mirroring the source. -/
inductive UclScanRes where
  | done (c : UclChunk) (needDouble : Bool)
  | emptyNum (c : UclChunk)
  | dotFail (c : UclChunk)
  | expFail (c : UclChunk)
  | expEndFail (c : UclChunk)
  | expSignFail (c : UclChunk)
deriving DecidableEq, Repr

/-- The scan loop of `ucl_lex_number`: consume digits, at most one `.`,
at most one exponent (whose sign byte is consumed after checking). -/
def ucl_lex_number_scan : Nat → UclChunk → Bool → Bool → Bool → Bool →
    UclScanRes
  | 0, c, _, _, _, needDouble => .done c needDouble
  | fuel + 1, c, pEqC, gotDot, gotExp, needDouble =>
    match c.rest with
    | [] => .done c needDouble
    | b :: _ =>
      if c_isdigit b then
        ucl_lex_number_scan fuel (ucl_chunk_skipc c) false gotDot gotExp needDouble
      else if pEqC then .emptyNum c
      else if b == 46 then
        if gotDot then .dotFail c
        else ucl_lex_number_scan fuel (ucl_chunk_skipc c) false true gotExp true
      else if b == 101 || b == 69 then
        if gotExp then .expFail c
        else
          let c1 := ucl_chunk_skipc c
          match c1.rest with
          | [] => .expEndFail c1
          | b2 :: _ =>
            if ¬ (c_isdigit b2 || b2 == 43 || b2 == 45) then .expSignFail c1
            else ucl_lex_number_scan fuel (ucl_chunk_skipc c1) false gotDot true true
      else .done c needDouble

/-- Outcome of `ucl_lex_number`.  `erange` records the out-of-range path,
where the source additionally drives the parser into the error state. -/
structure LexNumOut where
  success : Bool
  erange : Bool := false
  chunk : UclChunk
  err : Option UclErrMsg
  vtype : UclType := .int
  viv : Int := 0
  vdv : ℚ := 0
deriving DecidableEq, Repr

/-- The suffix phase of `ucl_lex_number` (`ucl_parser.c` lines 339-452):
the cursor stands on the byte after the parsed digits (`endptr`).
`sRest` is the remaining-bytes component of the state saved on entry to
`ucl_lex_number`; on an unmatched suffix the source executes
`chunk->pos = c; return false`, restoring only the cursor, so the failure
chunk takes `sRest` but keeps the advanced line, column and remain. -/
def ucl_lex_number_suffix (sRest : List Byte) (cp : UclChunk) (lv : Int) (dv : ℚ)
    (needDouble : Bool) (e : Option UclErrMsg) : LexNumOut :=
  let failOut : LexNumOut :=
    { success := false, chunk := { cp with rest := sRest }, err := e }
  match cp.rest with
  | [] => failOut
  | b :: _ =>
    if b == 109 || b == 77 || b == 103 || b == 71 || b == 107 || b == 75 then
      if cp.rest.length > 2 then
        let b2 := chAt cp 1
        if b2 == 115 || b2 == 83 then
          let dv1 : ℚ := if ¬ needDouble then (lv : ℚ) else dv
          let dv2 : ℚ :=
            if b == 109 || b == 77 then dv1 / 1000
            else dv1 * (ucl_lex_num_multiplier b false : ℚ)
          { success := true, chunk := ucl_chunk_skipc (ucl_chunk_skipc cp),
            err := e, vtype := .time, vdv := dv2 }
        else if b2 == 98 || b2 == 66 then
          let lv1 : Int := if needDouble then ratTrunc dv else lv
          { success := true, chunk := ucl_chunk_skipc (ucl_chunk_skipc cp),
            err := e, vtype := .int, viv := lv1 * ucl_lex_num_multiplier b true }
        else if ucl_lex_is_atom_end b2 then
          if needDouble then
            { success := true, chunk := ucl_chunk_skipc cp, err := e,
              vtype := .float, vdv := dv * (ucl_lex_num_multiplier b false : ℚ) }
          else
            { success := true, chunk := ucl_chunk_skipc cp, err := e,
              vtype := .int, viv := lv * ucl_lex_num_multiplier b false }
        else if decide (3 ≤ cp.rest.length) ∧ c_tolower b == 109 ∧
            c_tolower b2 == 105 ∧ c_tolower (chAt cp 2) == 110 then
          let dv1 : ℚ := if ¬ needDouble then (lv : ℚ) else dv
          { success := true,
            chunk := ucl_chunk_skipc (ucl_chunk_skipc (ucl_chunk_skipc cp)),
            err := e, vtype := .time, vdv := dv1 * 60 }
        else failOut
      else
        if needDouble then
          { success := true, chunk := ucl_chunk_skipc cp, err := e,
            vtype := .float, vdv := dv * (ucl_lex_num_multiplier b false : ℚ) }
        else
          { success := true, chunk := ucl_chunk_skipc cp, err := e,
            vtype := .int, viv := lv * ucl_lex_num_multiplier b false }
    else if b == 115 || b == 83 then
      if cp.rest.length == 1 || ucl_lex_is_atom_end (chAt cp 1) then
        let dv1 : ℚ := if ¬ needDouble then (lv : ℚ) else dv
        { success := true, chunk := ucl_chunk_skipc cp, err := e,
          vtype := .time, vdv := dv1 }
      else failOut
    else if b == 104 || b == 72 || b == 100 || b == 68 || b == 119 || b == 87 ||
        b == 121 || b == 89 then
      if cp.rest.length == 1 || ucl_lex_is_atom_end (chAt cp 1) then
        let dv1 : ℚ := if ¬ needDouble then (lv : ℚ) else dv
        { success := true, chunk := ucl_chunk_skipc cp, err := e,
          vtype := .time, vdv := dv1 * ucl_lex_time_multiplier b }
      else failOut
    else failOut

/-- `ucl_lex_number` (`ucl_parser.c` lines 249-470): save the state, scan
the digits, convert with `strtoimax`/`strtod`, then either finish at an
atom end, try a unit suffix, or fail.  The failure variants mirror the
source: the empty/double-dot/exponent-at-end/bad-exponent paths restore
the whole saved state, the double-exponent path returns without restoring,
the out-of-range path records an error, flags `erange` (the caller turns
it into the ERROR state), and restores; the unmatched-suffix path restores
the cursor only. -/
def ucl_lex_number (c0 : UclChunk) (e : Option UclErrMsg) : LexNumOut :=
  let s := ucl_chunk_save_state c0
  let cSign := if chHead c0 == 45 then ucl_chunk_skipc c0 else c0
  match ucl_lex_number_scan (cSign.rest.length + 1) cSign (chHead c0 != 45)
      false false false with
  | .done c1 needDouble =>
    if needDouble then
      let r := strtodModel s.rest
      if r.2.2 then
        { success := false, erange := true,
          chunk := ucl_chunk_restore_state c1 s, err := ucl_set_err e .outOfRange }
      else
        ucl_lex_number_tail s c1 r.2.1 0 r.1 true e
    else
      let r := strtoimaxModel s.rest
      if r.2.2 then
        { success := false, erange := true,
          chunk := ucl_chunk_restore_state c1 s, err := ucl_set_err e .outOfRange }
      else
        ucl_lex_number_tail s c1 r.2.1 r.1 0 false e
  | .emptyNum c1 =>
    { success := false, chunk := ucl_chunk_restore_state c1 s, err := e }
  | .dotFail c1 =>
    { success := false, chunk := ucl_chunk_restore_state c1 s, err := e }
  | .expFail c1 =>
    { success := false, chunk := c1, err := e }
  | .expEndFail c1 =>
    { success := false, chunk := ucl_chunk_restore_state c1 s, err := e }
  | .expSignFail c1 =>
    { success := false, chunk := ucl_chunk_restore_state c1 s,
      err := ucl_set_err e .wrongExpChar }
where
  /-- The endptr dispatch of `ucl_lex_number` (lines 333-341 and the
  `set_obj` label): a NUL or atom-end byte at `endptr` finishes the number;
  otherwise the suffix phase runs at `endptr`. -/
  ucl_lex_number_tail (s : UclSavedState) (c1 : UclChunk) (endRest : List Byte)
      (lv : Int) (dv : ℚ) (needDouble : Bool) (e : Option UclErrMsg) : LexNumOut :=
    let hb := endRest.headD 0
    if hb == 0 || ucl_lex_is_atom_end hb then
      { success := true, chunk := { c1 with rest := endRest }, err := e,
        vtype := if needDouble then .float else .int, viv := lv, vdv := dv }
    else
      ucl_lex_number_suffix s.rest { c1 with rest := endRest } lv dv needDouble e

/-- The `\u` hex-digit loop inside `ucl_lex_json_string`
(`for (i = 0; i < 4 && p < chunk->end; i++)` followed by the end check):
consume up to four hex digits; a non-hex byte is an invalid escape, running
out of input is an unfinished escape. -/
def jsonUEscapeLoop : Nat → UclChunk → UclChunk × Option UclErrMsg
  | 0, cc => (cc, if cc.rest.isEmpty then some .unfinishedEscape else none)
  | i + 1, cc =>
    match cc.rest with
    | [] => (cc, some .unfinishedEscape)
    | b :: _ =>
      if c_isxdigit b then jsonUEscapeLoop i (ucl_chunk_skipc cc)
      else (cc, some .invalidUtfEscape)

/-- `ucl_lex_json_string` (`ucl_parser.c` lines 479-540): scan a quoted
string body.  Returns (parsed-ok, need_unescape, chunk, error).  A byte
below 0x1F is rejected (`if (c < 0x1F)`), a newline with its own message;
a backslash starts an escape (`\u` takes four hex digits); the closing
quote succeeds; running off the end returns false with no error set. -/
def ucl_lex_json_string_go : Nat → UclChunk → Bool → Option UclErrMsg →
    Bool × Bool × UclChunk × Option UclErrMsg
  | 0, c, nu, e => (false, nu, c, e)
  | fuel + 1, c, nu, e =>
    match c.rest with
    | [] => (false, nu, c, e)
    | b :: tl =>
      if b < 31 then
        if b == 10 then (false, nu, c, ucl_set_err e .unexpectedNewline)
        else (false, nu, c, ucl_set_err e .unexpectedControlChar)
      else if b == 92 then
        let c1 := ucl_chunk_skipc c
        match tl with
        | [] => (false, nu, c1, ucl_set_err e .unfinishedEscape)
        | b2 :: _ =>
          if ucl_test_escape b2 then
            if b2 == 117 then
              let r := jsonUEscapeLoop 4 (ucl_chunk_skipc c1)
              match r.2 with
              | some m => (false, nu, r.1, ucl_set_err e m)
              | none => ucl_lex_json_string_go fuel r.1 true e
            else ucl_lex_json_string_go fuel (ucl_chunk_skipc c1) true e
          else (false, nu, c1, ucl_set_err e .invalidEscapeChar)
      else if b == 34 then (true, nu, ucl_chunk_skipc c, e)
      else ucl_lex_json_string_go fuel (ucl_chunk_skipc c) nu e

/-- Entry point: the loop consumes at least one byte per iteration, so
`length + 1` rounds of the loop body cover the whole scan. -/
def ucl_lex_json_string (c : UclChunk) (nu : Bool) (e : Option UclErrMsg) :
    Bool × Bool × UclChunk × Option UclErrMsg :=
  ucl_lex_json_string_go (c.rest.length + 1) c nu e

/-- Parser states, `enum ucl_parser_state` of `ucl_internal.h` (the
`MACRO` state is named `macroArg` here). -/
inductive UclPState where
  | init
  | object
  | array
  | key
  | value
  | afterValue
  | arrayValue
  | scomment
  | mcomment
  | macroName
  | macroArg
  | error
deriving DecidableEq, Repr

mutual

/-- `ucl_skip_comments` (`ucl_parser.c` lines 99-155), the `start` label:
dispatch on `#` (single-line) or `/*` (nestable block); anything else
returns true at once.  `st` is `parser->state`.  The loops are consumed
through a fuel argument (the wrapper supplies enough for the whole
chunk). -/
def ucl_skip_comments_start (st : UclPState) : Nat → UclChunk → Option UclErrMsg →
    Bool × UclChunk × Option UclErrMsg
  | 0, c, e => (true, c, e)
  | fuel + 1, c, e =>
    match c.rest with
    | [] => (true, c, e)
    | b :: tl =>
      if b == 35 then
        if st ≠ .scomment ∧ st ≠ .mcomment then
          ucl_skip_hash_loop st fuel c e
        else (true, c, e)
      else if b == 47 ∧ decide (2 ≤ c.remain) then
        if tl.headD 0 == 42 then
          ucl_skip_mcomment_loop st fuel (ucl_chunk_skipc (ucl_chunk_skipc c)) 1 e
        else (true, c, e)
      else (true, c, e)
termination_by structural f c e => f

/-- The `#`-comment loop of `ucl_skip_comments`: consume to just past the
newline, then restart at `start`; at end of input return true. -/
def ucl_skip_hash_loop (st : UclPState) : Nat → UclChunk → Option UclErrMsg →
    Bool × UclChunk × Option UclErrMsg
  | 0, c, e => (true, c, e)
  | fuel + 1, c, e =>
    match c.rest with
    | [] => (true, c, e)
    | b :: _ =>
      if b == 10 then ucl_skip_comments_start st fuel (ucl_chunk_skipc c) e
      else ucl_skip_hash_loop st fuel (ucl_chunk_skipc c) e
termination_by structural f c e => f

/-- The `/* ... */` loop of `ucl_skip_comments` with its nesting counter.
As in the source, a `*` consumes the star, possibly the closing slash,
and then one further byte (the loop body falls through to the trailing
`ucl_chunk_skipc`); a nested `/*` opener consumes two bytes and
`continue`s; reaching the end with a nonzero counter is the nesting
error. -/
def ucl_skip_mcomment_loop (st : UclPState) : Nat → UclChunk → Nat → Option UclErrMsg →
    Bool × UclChunk × Option UclErrMsg
  | 0, c, nested, e =>
    if nested ≠ 0 then (false, c, ucl_set_err e .commentsNested)
    else (true, c, e)
  | fuel + 1, c, nested, e =>
    match c.rest with
    | [] =>
      if nested ≠ 0 then (false, c, ucl_set_err e .commentsNested)
      else (true, c, e)
    | b :: tl =>
      if b == 42 then
        let c1 := ucl_chunk_skipc c
        if chHead c1 == 47 ∧ nested - 1 == 0 then
          ucl_skip_comments_start st fuel (ucl_chunk_skipc c1) e
        else
          let nested1 := if chHead c1 == 47 then nested - 1 else nested
          ucl_skip_mcomment_loop st fuel (ucl_chunk_skipc (ucl_chunk_skipc c1)) nested1 e
      else if b == 47 ∧ decide (2 ≤ c.remain) ∧ tl.headD 0 == 42 then
        ucl_skip_mcomment_loop st fuel
          (ucl_chunk_skipc (ucl_chunk_skipc c)) (nested + 1) e
      else ucl_skip_mcomment_loop st fuel (ucl_chunk_skipc c) nested e
termination_by structural f c n e => f

end

/-- `ucl_skip_comments` entry: every loop round either consumes a byte
or dispatches once after consuming one, so `2·length + 4` rounds always
suffice. -/
def ucl_skip_comments_go (st : UclPState) (c : UclChunk) (e : Option UclErrMsg) :
    Bool × UclChunk × Option UclErrMsg :=
  ucl_skip_comments_start st (2 * c.rest.length + 4) c e

/-- Value of a hex digit byte as `ucl_unescape_json_string` computes it
(0 for any other byte, which simply contributes nothing). -/
def hexNibble (b : Byte) : Nat :=
  if c_isdigit b then b - 48
  else if 97 ≤ b ∧ b ≤ 102 then b - 97 + 10
  else if 65 ≤ b ∧ b ≤ 70 then b - 65 + 10
  else 0

/-- The UTF-8 encoder inside `ucl_unescape_json_string` (`ucl_util.c`
lines 134-158): 1-4 bytes, `?` above U+10FFFF. -/
def uclUtf8Encode (uval : Nat) : List Byte :=
  if uval < 0x80 then [uval]
  else if uval < 0x800 then
    [0xC0 + ((uval &&& 0x7C0) >>> 6), 0x80 + (uval &&& 0x3F)]
  else if uval < 0x10000 then
    [0xE0 + ((uval &&& 0xF000) >>> 12), 0x80 + ((uval &&& 0x0FC0) >>> 6),
      0x80 + (uval &&& 0x3F)]
  else if uval ≤ 0x10FFFF then
    [0xF0 + ((uval &&& 0x1C0000) >>> 18), 0x80 + ((uval &&& 0x3F000) >>> 12),
      0x80 + ((uval &&& 0xFC0) >>> 6), 0x80 + (uval &&& 0x3F)]
  else [63]

/-- `ucl_unescape_json_string` (`ucl_util.c` lines 84-170), as the
transformation from the escaped bytes to the written-out bytes (the
source rewrites the buffer in place; the stale bytes it leaves after the
written prefix are not modelled, no claim depends on them).  As in the
source, the `\u` case reads `h[0..3]` while `h` still points at the `u`
itself, so it folds the `u` (nibble 0) and only the first three hex
digits into the code point and leaves the fourth digit as literal text. -/
def ucl_unescape_json_string_go : Nat → List Byte → List Byte
  | 0, _ => []
  | _ + 1, [] => []
  | _ + 1, 0 :: _ => []
  | fuel + 1, 92 :: rest =>
    match rest with
    | [] => [63]
    | c :: rest2 =>
      if c == 110 then 10 :: ucl_unescape_json_string_go fuel rest2
      else if c == 114 then 13 :: ucl_unescape_json_string_go fuel rest2
      else if c == 98 then 8 :: ucl_unescape_json_string_go fuel rest2
      else if c == 116 then 9 :: ucl_unescape_json_string_go fuel rest2
      else if c == 102 then 12 :: ucl_unescape_json_string_go fuel rest2
      else if c == 92 then 92 :: ucl_unescape_json_string_go fuel rest2
      else if c == 34 then 34 :: ucl_unescape_json_string_go fuel rest2
      else if c == 117 then
        let uval := ((hexNibble c * 16 + hexNibble (rest2.getD 0 0)) * 16 +
          hexNibble (rest2.getD 1 0)) * 16 + hexNibble (rest2.getD 2 0)
        uclUtf8Encode uval ++ ucl_unescape_json_string_go fuel (rest2.drop 3)
      else 63 :: ucl_unescape_json_string_go fuel rest2
  | fuel + 1, b :: rest => b :: ucl_unescape_json_string_go fuel rest

/-- `ucl_unescape_json_string` entry: each round consumes at least one
byte. -/
def ucl_unescape_json_string (l : List Byte) : List Byte :=
  ucl_unescape_json_string_go (l.length + 1) l

/-- Modelled from the spec: `ucl_strlcpy_unsafe` is declared in
`ucl_internal.h` but its definition is absent from the tree; it is the
bounded memcpy the parser uses to copy `siz - 1` raw bytes. -/
def ucl_strlcpy_unsafe (src : List Byte) (siz : Nat) : List Byte :=
  src.take (siz - 1)

/-- `ucl_strlcpy_tolower` (`ucl_util.c` lines 643-664): copy up to
`siz - 1` bytes, lowercased, stopping after a NUL (the resulting C string
ends at that NUL). -/
def ucl_strlcpy_tolower (src : List Byte) (siz : Nat) : List Byte :=
  ((src.take (siz - 1)).takeWhile (fun b => b ≠ 0)).map c_tolower

/-- `ucl_maybe_parse_boolean` (`ucl_parser.c` lines 823-868): match the
span case-insensitively against false/true/yes/off/no/on. -/
def ucl_maybe_parse_boolean (span : List Byte) : Option Bool :=
  let low := span.map c_tolower
  if span.length == 5 ∧ low == cstr ['f', 'a', 'l', 's', 'e'] then some false
  else if span.length == 4 ∧ low == cstr ['t', 'r', 'u', 'e'] then some true
  else if span.length == 3 ∧ low == cstr ['y', 'e', 's'] then some true
  else if span.length == 3 ∧ low == cstr ['o', 'f', 'f'] then some false
  else if span.length == 2 ∧ low == cstr ['n', 'o'] then some false
  else if span.length == 2 ∧ low == cstr ['o', 'n'] then some true
  else none

/-- The scan loop of `ucl_parse_string_value` (`ucl_parser.c` lines
713-766) with its figure/square brace pair counters: a `}`/`]` that
closes a matching pair is skipped as content; otherwise the atom ends at
a value-end byte or a comment opener; the end of input is an unfinished
value.  On break the cursor stays on the terminating byte. -/
def ucl_parse_string_value_loop : Nat → UclChunk → Nat → Nat → Nat → Nat →
    Option UclErrMsg → Bool × UclChunk × Option UclErrMsg
  | 0, c, _, _, _, _, e => (false, c, ucl_set_err e .unfinishedValue)
  | fuel + 1, c, fo, fc, so, sc, e =>
    match c.rest with
    | [] => (false, c, ucl_set_err e .unfinishedValue)
    | b :: tl =>
      if b == 123 then
        ucl_parse_string_value_loop fuel (ucl_chunk_skipc c) (fo + 1) fc so sc e
      else if b == 125 then
        if fc + 1 == fo then
          ucl_parse_string_value_loop fuel (ucl_chunk_skipc c) fo (fc + 1) so sc e
        else (true, c, e)
      else if b == 91 then
        ucl_parse_string_value_loop fuel (ucl_chunk_skipc c) fo fc (so + 1) sc e
      else if b == 93 then
        if sc + 1 == so then
          ucl_parse_string_value_loop fuel (ucl_chunk_skipc c) fo fc so (sc + 1) e
        else (true, c, e)
      else if ucl_lex_is_atom_end b || ucl_lex_is_comment b (tl.headD 0) then
        (true, c, e)
      else
        ucl_parse_string_value_loop fuel (ucl_chunk_skipc c) fo fc so sc e

/-- `ucl_parse_string_value`: run the brace-aware scan with all four
counters at zero. -/
def ucl_parse_string_value (c : UclChunk) (e : Option UclErrMsg) :
    Bool × UclChunk × Option UclErrMsg :=
  ucl_parse_string_value_loop (c.rest.length + 1) c 0 0 0 0 e

/-- The scan loop of `ucl_parse_multiline_string` (`ucl_parser.c` lines
777-814): look, after each newline, for the terminator followed by `\n`
or `\r`.  `orig` is the chunk rest at the content start; the result is
(`len`, final chunk): on a match `len = p - c`, the cursor jumps past the
terminator (`remain -= term_len`, `column = term_len`, line untouched);
otherwise `len = 0` with the chunk wherever the loop stopped. -/
def ucl_parse_multiline_loop (term orig : List Byte) : Nat → UclChunk → Bool →
    Nat × UclChunk
  | 0, c, _ => (0, c)
  | fuel + 1, c, nl =>
    match c.rest with
    | [] => (0, c)
    | b :: tl =>
      if nl then
        if (b :: tl).length < term.length then (0, c)
        else if (b :: tl).take term.length == term ∧
            ((b :: tl).getD term.length 0 == 10 ∨
              (b :: tl).getD term.length 0 == 13) then
          (orig.length - (b :: tl).length,
            ⟨(b :: tl).drop term.length, c.line, term.length,
              c.remain - term.length⟩)
        else
          ucl_parse_multiline_loop term orig fuel (ucl_chunk_skipc c) (b == 10)
      else
        ucl_parse_multiline_loop term orig fuel (ucl_chunk_skipc c) (b == 10)

/-- `ucl_parse_multiline_string`: scan from the content start with the
newline flag initially false. -/
def ucl_parse_multiline_string (term : List Byte) (c : UclChunk) : Nat × UclChunk :=
  ucl_parse_multiline_loop term c.rest (c.rest.length + 1) c false

/-- One allocated `ucl_object_t` (`include/ucl.h`).  The C union value is
split into typed fields; `entries` is the object container (the uthash
chain heads in insertion order, `HASH_ADD` order), `sibs` the same-key
sibling chain hanging off a chain head (the `DL_APPEND` next-list), and
`aelts` the element list of an array (also a next-list in C).  `key`
holds the NUL-terminated key bytes while `keylen` and `len` are the
separate `uint32_t` length fields the emitter consumes
(`ucl_object_new`, which zeroes the object, is not in the tree; see its
model below). -/
structure ObjData where
  type : UclType := .object
  key : List Byte := []
  keylen : Nat := 0
  iv : Int := 0
  dv : ℚ := 0
  sv : List Byte := []
  len : Nat := 0
  flags : Nat := 0
  entries : List Nat := []
  sibs : List Nat := []
  aelts : List Nat := []
  ref : Nat := 0
deriving DecidableEq, Repr

/-- The zeroed object `ucl_object_new`'s calloc produces. -/
def objZero : ObjData :=
  { type := .object, key := [], keylen := 0, iv := 0, dv := 0, sv := [],
    len := 0, flags := 0, entries := [], sibs := [], aelts := [], ref := 0 }

/-- Read an object from the arena (a dangling id yields a zeroed object). -/
def hget (h : List ObjData) (i : Nat) : ObjData :=
  h.getD i objZero

/-- Update an object in the arena. -/
def hupd (h : List ObjData) (i : Nat) (f : ObjData → ObjData) : List ObjData :=
  h.set i (f (hget h i))

/-- `struct ucl_parser` (`ucl_internal.h`), with the object graph as an
arena and macro handlers kept outside the structure (they are C function
pointers; the state machine receives them as a parameter). -/
structure UclParser where
  state : UclPState := .init
  prev_state : UclPState := .init
  recursion : Nat := 0
  flags : Nat := 0
  top_obj : Option Nat := none
  cur_obj : Option Nat := none
  stack : List Nat := []
  macroNames : List (List Byte) := []
  chunks : List UclChunk := []
  heap : List ObjData := []
deriving DecidableEq, Repr

/-- Modelled from the spec: `ucl_object_new` is declared in `ucl.h` but
its translation unit is absent; per the spec's value model it allocates a
fresh zeroed value (tag 0 = OBJECT, refcount 0, no key). -/
def ucl_object_new (h : List ObjData) : Nat × List ObjData :=
  (h.length, h ++ [objZero])

/-- UCL_PARSER_KEY_LOWERCASE. -/
def UCL_FLAG_KEY_LOWERCASE : Nat := 1

/-- UCL_MAX_RECURSION (`ucl_internal.h` line 49). -/
def UCL_MAX_RECURSION : Nat := 16

/-- Result of the key-scanning loop of `ucl_parse_key`. -/
inductive KeyScanRes where
  | fail (c : UclChunk) (e : Option UclErrMsg)
  | ok (key : List Byte) (nu : Bool) (c : UclChunk)
deriving DecidableEq, Repr

/-- The first loop of `ucl_parse_key` (`ucl_parser.c` lines 567-620):
find the key start (skipping comments), then scan the key body to a key
separator, or lex a quoted JSON key.  `cRest?` is the saved `c` pointer
(the chunk rest at the key start), `gotQuote` the quoted flag; the
returned key bytes are the span `c..end`.  Fuel only bounds the loop (the
source can spin when `ucl_skip_comments` consumes nothing, which cannot
happen in the states the parser uses). -/
def ucl_parse_key_scan (st : UclPState) : Nat → UclChunk → Option (List Byte) →
    Bool → Option UclErrMsg → Option KeyScanRes
  | 0, _, _, _, _ => none
  | fuel + 1, c, cRest?, gotQuote, e =>
    match c.rest with
    | [] => some (.fail c (ucl_set_err e .unfinishedKey))
    | b :: tl =>
      match cRest? with
      | none =>
        if ucl_lex_is_comment b (tl.headD 0) then
          match ucl_skip_comments_go st c e with
          | (true, c2, e2) => ucl_parse_key_scan st fuel c2 none false e2
          | (false, c2, e2) => some (.fail c2 e2)
        else if ucl_test_key_start b then
          ucl_parse_key_scan st fuel (ucl_chunk_skipc c) (some c.rest) false e
        else if b == 34 then
          ucl_parse_key_scan st fuel (ucl_chunk_skipc c) (some tl) true e
        else some (.fail c (ucl_set_err e .keyBeginLetter))
      | some cr =>
        if ¬ gotQuote then
          if ucl_test_key b then
            ucl_parse_key_scan st fuel (ucl_chunk_skipc c) (some cr) gotQuote e
          else if ucl_test_key_sep b then
            some (.ok (cr.take (cr.length - c.rest.length)) false c)
          else some (.fail c (ucl_set_err e .invalidKeyChar))
        else
          match ucl_lex_json_string c false e with
          | (true, nu, c2, e2) =>
            some (.ok (cr.take (cr.length - c2.rest.length - 1)) nu c2)
          | (false, _, c2, e2) => some (.fail c2 e2)

/-- The second loop of `ucl_parse_key` (lines 628-667): skip whitespace,
at most one `=` or `:`, and comments, until the value begins; the end of
input is an unfinished key. -/
def ucl_parse_key_sep_scan (st : UclPState) : Nat → UclChunk → Bool → Bool →
    Option UclErrMsg → Option (Bool × UclChunk × Option UclErrMsg)
  | 0, _, _, _, _ => none
  | fuel + 1, c, gotEq, gotSemi, e =>
    match c.rest with
    | [] => some (false, c, ucl_set_err e .unfinishedKey)
    | b :: tl =>
      if ucl_test_whitespace b then
        ucl_parse_key_sep_scan st fuel (ucl_chunk_skipc c) gotEq gotSemi e
      else if b == 61 then
        if ¬ gotEq ∧ ¬ gotSemi then
          ucl_parse_key_sep_scan st fuel (ucl_chunk_skipc c) true gotSemi e
        else some (false, c, ucl_set_err e .unexpectedEq)
      else if b == 58 then
        if ¬ gotEq ∧ ¬ gotSemi then
          ucl_parse_key_sep_scan st fuel (ucl_chunk_skipc c) gotEq true e
        else some (false, c, ucl_set_err e .unexpectedColon)
      else if ucl_lex_is_comment b (tl.headD 0) then
        match ucl_skip_comments_go st c e with
        | (true, c2, e2) => ucl_parse_key_sep_scan st fuel c2 gotEq gotSemi e2
        | (false, c2, e2) => some (false, c2, e2)
      else some (true, c, e)

/-- `ucl_parse_key` (`ucl_parser.c` lines 549-704).  A leading `.` flips
the parser to the macro-name state.  Otherwise the key is scanned and the
new object is created with the (optionally lowercased, optionally
unescaped) key and inserted into the container on top of the stack:
`HASH_FIND` by key, `DL_APPEND` to the existing chain head on a repeated
key, else `HASH_ADD` of the new chain head (the model compares the
processed key bytes).  `cur_obj` is left pointing at the new object. -/
def ucl_parse_key (fuel : Nat) (P : UclParser) (c : UclChunk) (e : Option UclErrMsg) :
    Option (Bool × UclParser × UclChunk × Option UclErrMsg) :=
  if chHead c == 46 then
    some (true, { P with prev_state := P.state, state := .macroName },
      ucl_chunk_skipc c, e)
  else
    match ucl_parse_key_scan P.state fuel c none false e with
    | none => none
    | some (.fail c2 e2) => some (false, P, c2, e2)
    | some (.ok keyBytes nu c2) =>
      match ucl_parse_key_sep_scan P.state fuel c2 false false e with
      | none => none
      | some (false, c3, e3) => some (false, P, c3, e3)
      | some (true, c3, e3) =>
        let keylen := keyBytes.length
        let key1 :=
          if P.flags &&& UCL_FLAG_KEY_LOWERCASE ≠ 0 then
            ucl_strlcpy_tolower keyBytes (keylen + 1)
          else ucl_strlcpy_unsafe keyBytes (keylen + 1)
        let key2 := if nu then ucl_unescape_json_string key1 else key1
        let alloc := ucl_object_new P.heap
        let h2 := hupd alloc.2 alloc.1 (fun o => { o with key := key2 })
        let topId := P.stack.headD 0
        match ((hget h2 topId).entries).find? (fun t => (hget h2 t).key == key2) with
        | none =>
          let h3 := hupd h2 topId (fun o => { o with entries := o.entries ++ [alloc.1] })
          some (true, { P with heap := h3, cur_obj := some alloc.1 }, c3, e3)
        | some t =>
          let h3 := hupd h2 t (fun o => { o with sibs := o.sibs ++ [alloc.1] })
          some (true, { P with heap := h3, cur_obj := some alloc.1 }, c3, e3)

/-- The whitespace-skip loops `while (p < chunk->end && WS_UNSAFE(*p)) skipc`. -/
def ucl_ws_unsafe_skip_go : Nat → UclChunk → UclChunk
  | 0, c => c
  | fuel + 1, c =>
    match c.rest with
    | [] => c
    | b :: _ =>
      if ucl_test_whitespace_unsafe b then
        ucl_ws_unsafe_skip_go fuel (ucl_chunk_skipc c)
      else c

/-- Entry point (fuel covers the whole chunk). -/
def ucl_ws_unsafe_skip (c : UclChunk) : UclChunk :=
  ucl_ws_unsafe_skip_go (c.rest.length + 1) c

/-- `ucl_parse_value` (`ucl_parser.c` lines 877-1066).  The loop carries
the object being filled (`obj?`, NULL until allocated or fetched from
`cur_obj`) and ends by setting the value and the follow-up state.  The
quoted, `{`, `[`, heredoc, number, boolean and bare-string branches are
transcribed in order; `erange` from the number lexer drives the parser to
ERROR as in the source (`parser->state` is checked right after the failed
`ucl_lex_number`).  Fuel bounds the skip-spaces/comments `continue`
path. -/
def ucl_parse_value_loop : Nat → UclParser → UclChunk → Option Nat →
    Option UclErrMsg → Option (Bool × UclParser × UclChunk × Option UclErrMsg)
  | 0, _, _, _, _ => none
  | fuel + 1, P, c, obj?, e =>
    match c.rest with
    | [] => some (true, P, c, e)
    | b :: tl =>
      let topId := P.stack.headD 0
      let Poid : UclParser × Nat :=
        match obj? with
        | some o => (P, o)
        | none =>
          if (hget P.heap topId).type == .array then
            let alloc := ucl_object_new P.heap
            let h2 := hupd alloc.2 topId (fun o => { o with aelts := o.aelts ++ [alloc.1] })
            ({ P with heap := h2, cur_obj := some alloc.1 }, alloc.1)
          else (P, P.cur_obj.getD 0)
      let P1 := Poid.1
      let oid := Poid.2
      let cr := c.rest
      if b == 34 then
        match ucl_lex_json_string (ucl_chunk_skipc c) false e with
        | (false, _, c2, e2) => some (false, P1, c2, e2)
        | (true, nu, c2, e2) =>
          let content := (cr.drop 1).take (cr.length - c2.rest.length - 2)
          let sv := if nu then ucl_unescape_json_string content else content
          let h := hupd P1.heap oid (fun o => { o with type := .str, sv := sv })
          some (true, { P1 with heap := h, state := .afterValue }, c2, e2)
      else if b == 123 then
        let h := hupd P1.heap oid (fun o => { o with type := .object })
        let P2 := { P1 with heap := h, state := UclPState.key,
                            stack := oid :: P1.stack, cur_obj := some oid }
        some (true, P2, ucl_chunk_skipc c, e)
      else if b == 91 then
        let h := hupd P1.heap oid (fun o => { o with type := .array })
        let P2 := { P1 with heap := h, state := UclPState.value,
                            stack := oid :: P1.stack, cur_obj := some oid }
        some (true, P2, ucl_chunk_skipc c, e)
      else if b == 60 ∧ decide (3 < cr.length) ∧ cr.take 2 == [60, 60] ∧
          ((cr.drop 2).drop ((cr.drop 2).takeWhile
            (fun x => decide (65 ≤ x ∧ x ≤ 90))).length).headD 0 == 10 then
        let ups := (cr.drop 2).takeWhile (fun x => decide (65 ≤ x ∧ x ≤ 90))
        let after := (cr.drop 2).drop ups.length
        let c1 : UclChunk :=
          { rest := after.drop 1, line := c.line + 1, column := 0,
            remain := c.remain - ups.length }
        match h1 : ucl_parse_multiline_string ups c1 with
        | (0, c2) => some (false, P1, c2, ucl_set_err e .untermMultiline)
        | (len, c2) =>
          let sv := (c1.rest.take len).take (len - 1)
          let h := hupd P1.heap oid (fun o => { o with type := .str, sv := sv })
          some (true, { P1 with heap := h, state := .afterValue }, c2, e)
      else if ( ucl_test_whitespace_unsafe b || ucl_lex_is_comment b (tl.headD 0)) then
        let cw := ucl_ws_unsafe_skip c
        match ucl_skip_comments_go P1.state cw e with
        | (false, c2, e2) => some (false, P1, c2, e2)
        | (true, c2, e2) => ucl_parse_value_loop fuel P1 c2 (some oid) e2
      else if ucl_test_digit_start b then
        let out := ucl_lex_number c e
        if out.success then
          let h := hupd P1.heap oid (fun o =>
            { o with type := out.vtype, iv := out.viv, dv := out.vdv })
          some (true, { P1 with heap := h, state := .afterValue }, out.chunk, out.err)
        else
          let P2 := if out.erange then
            { P1 with prev_state := P1.state, state := .error } else P1
          if P2.state == .error then some (false, P2, out.chunk, out.err)
          else ucl_parse_value_string_tail P2 out.chunk oid cr out.err
      else ucl_parse_value_string_tail P1 c oid cr e
where
  /-- The shared bare-string tail of `ucl_parse_value` (both copies of the
  cut-and-paste block, lines 1001-1025 and 1033-1058): scan the atom,
  try a boolean, else strip trailing whitespace and store the string. -/
  ucl_parse_value_string_tail (P : UclParser) (c : UclChunk) (oid : Nat)
      (cr : List Byte) (e : Option UclErrMsg) :
      Option (Bool × UclParser × UclChunk × Option UclErrMsg) :=
    match ucl_parse_string_value c e with
    | (false, c2, e2) => some (false, P, c2, e2)
    | (true, c2, e2) =>
      let span := cr.take (cr.length - c2.rest.length)
      match ucl_maybe_parse_boolean span with
      | some bv =>
        let h := hupd P.heap oid (fun o =>
          { o with type := .boolean, iv := if bv then 1 else 0 })
        some (true, { P with heap := h, state := .afterValue }, c2, e2)
      | none =>
        let stripped := (span.reverse.takeWhile ucl_test_whitespace).length
        if span.length + 1 ≤ stripped then
          some (false, P, c2, ucl_set_err e2 .emptyStringValue)
        else
          let sv := ucl_strlcpy_unsafe span (span.length + 1 - stripped)
          let h := hupd P.heap oid (fun o => { o with type := .str, sv := sv })
          some (true, { P with heap := h, state := .afterValue }, c2, e2)

/-- `ucl_parse_value` entry point. -/
def ucl_parse_value (fuel : Nat) (P : UclParser) (c : UclChunk)
    (e : Option UclErrMsg) :
    Option (Bool × UclParser × UclChunk × Option UclErrMsg) :=
  ucl_parse_value_loop fuel P c none e

/-- Generic `while (p < chunk->end && f (*p)) ucl_chunk_skipc (chunk, p)`
scan used by `ucl_parse_macro_value`. -/
def ucl_scan_while_go (f : Byte → Bool) : Nat → UclChunk → UclChunk
  | 0, c => c
  | fuel + 1, c =>
    match c.rest with
    | [] => c
    | b :: _ =>
      if f b then ucl_scan_while_go f fuel (ucl_chunk_skipc c)
      else c

/-- Entry point (fuel covers the whole chunk). -/
def ucl_scan_while (f : Byte → Bool) (c : UclChunk) : UclChunk :=
  ucl_scan_while_go f (c.rest.length + 1) c

/-- `ucl_parse_after_value` (`ucl_parser.c` lines 1076-1143): skip
whitespace, comments (which count as separators) and separator bytes; a
closing `}`/`]` pops the stack when it matches the top container's type
(empty stack: "unexpected }"; type mismatch: "unexpected terminating
symbol"); when the stack empties the rest of the chunk is ignored without
consuming the brace; any other byte requires a separator to have been
seen.  Fuel bounds the comment `continue`. -/
def ucl_parse_after_value_loop : Nat → UclParser → UclChunk → Bool →
    Option UclErrMsg → Option (Bool × UclParser × UclChunk × Option UclErrMsg)
  | 0, _, _, _, _ => none
  | fuel + 1, P, c, gotSep, e =>
    match c.rest with
    | [] => some (true, P, c, e)
    | b :: tl =>
      if ucl_test_whitespace b then
        ucl_parse_after_value_loop fuel P (ucl_chunk_skipc c) gotSep e
      else if ucl_lex_is_comment b (tl.headD 0) then
        match ucl_skip_comments_go P.state c e with
        | (false, c2, e2) => some (false, P, c2, e2)
        | (true, c2, e2) => ucl_parse_after_value_loop fuel P c2 true e2
      else if ucl_test_value_end b then
        if b == 125 ∨ b == 93 then
          match P.stack with
          | [] => some (false, P, c, ucl_set_err e .unexpectedBrace)
          | top :: rest =>
            if (b == 125 ∧ (hget P.heap top).type == .object) ∨
                (b == 93 ∧ (hget P.heap top).type == .array) then
              let P2 := { P with stack := rest }
              if rest.isEmpty then some (true, P2, c, e)
              else ucl_parse_after_value_loop fuel P2 (ucl_chunk_skipc c) true e
            else some (false, P, c, ucl_set_err e .unexpectedTermination)
        else ucl_parse_after_value_loop fuel P (ucl_chunk_skipc c) true e
      else
        if ¬ gotSep then some (false, P, c, ucl_set_err e .delimiterMissing)
        else some (true, P, c, e)

/-- `ucl_parse_after_value` entry point. -/
def ucl_parse_after_value (fuel : Nat) (P : UclParser) (c : UclChunk)
    (e : Option UclErrMsg) :
    Option (Bool × UclParser × UclChunk × Option UclErrMsg) :=
  ucl_parse_after_value_loop fuel P c false e

/-- The trailing `';'`-and-space skip ending `ucl_parse_macro_value`. -/
def ucl_macro_trailing_skip (c : UclChunk) : UclChunk :=
  ucl_scan_while (fun b => ucl_test_whitespace_unsafe b || b == 59) c

/-- `ucl_parse_macro_value` (`ucl_parser.c` lines 1153-1221): the macro
argument is a quoted string, a `{`-enclosed body (leading unsafe
whitespace stripped, scan to `}`), or a bare atom; trailing whitespace
and `;` are then consumed.  Returns success, the argument bytes, the
chunk and the error record. -/
def ucl_parse_macro_value (c : UclChunk) (e : Option UclErrMsg) :
    Bool × List Byte × UclChunk × Option UclErrMsg :=
  let cr := c.rest
  if chHead c == 34 then
    match ucl_lex_json_string (ucl_chunk_skipc c) false e with
    | (false, _, c2, e2) => (false, [], c2, e2)
    | (true, _, c2, e2) =>
      let st := (cr.drop 1).take (cr.length - c2.rest.length - 2)
      (true, st, ucl_macro_trailing_skip c2, e2)
  else if chHead c == 123 then
    let c1 := ucl_ws_unsafe_skip (ucl_chunk_skipc c)
    let c2 := ucl_scan_while (fun b => b != 125) c1
    let st := c1.rest.take (c1.rest.length - c2.rest.length)
    (true, st, ucl_macro_trailing_skip (ucl_chunk_skipc c2), e)
  else
    let c2 := ucl_scan_while (fun b => ! ucl_lex_is_atom_end b) c
    let st := cr.take (cr.length - c2.rest.length)
    (true, st, ucl_macro_trailing_skip c2, e)

/-- The space-and-comment skip of the MACRO_NAME state (`ucl_parser.c`
lines 1342-1354): skip unsafe whitespace; on a comment, run the comment
skipper and stop (a comment-skip failure aborts WITHOUT touching
`parser->state`); any other byte stops the loop. -/
def ucl_macro_space_skip (st : UclPState) : Nat → UclChunk → Option UclErrMsg →
    Option (Bool × UclChunk × Option UclErrMsg)
  | 0, _, _ => none
  | fuel + 1, c, e =>
    match c.rest with
    | [] => some (true, c, e)
    | b :: tl =>
      if ucl_test_whitespace_unsafe b then
        ucl_macro_space_skip st fuel (ucl_chunk_skipc c) e
      else if ucl_lex_is_comment b (tl.headD 0) then
        match ucl_skip_comments_go st c e with
        | (false, c2, e2) => some (false, c2, e2)
        | (true, c2, e2) => some (true, c2, e2)
      else some (true, c, e)

/-- A macro handler as seen by the state machine: it receives the
argument bytes and may update the parser and the error record. -/
def UclMacroHandler : Type :=
  List Byte → UclParser → Option UclErrMsg → Bool × UclParser × Option UclErrMsg

/-- `ucl_state_machine` main loop (`ucl_parser.c` lines 1231-1380),
parameterised by the macro handler `H` used for every registered macro.
`cM` is the saved macro-name start (`c` in the source, as the rest at
that point).  Each failing sub-parser sets `prev_state` and drives the
state to ERROR — except an unknown macro name (which only sets the state)
and the two MACRO paths that return false with the state untouched: a
comment-skip failure while scanning for the macro argument, and the macro
handler itself failing after the state was already restored to
`prev_state`. -/
def ucl_state_machine_loop (H : UclMacroHandler) :
    Nat → UclParser → UclChunk → List Byte → Option UclErrMsg →
    Option (Bool × UclParser × UclChunk × Option UclErrMsg)
  | 0, _, _, _, _ => none
  | fuel + 1, P, c, cM, e =>
    match c.rest with
    | [] => some (true, P, c, e)
    | b :: _ =>
      match P.state with
      | .init =>
        match ucl_skip_comments_go .init c e with
        | (false, c2, e2) =>
          some (false, { P with prev_state := P.state, state := .error }, c2, e2)
        | (true, c2, e2) =>
          let alloc := ucl_object_new P.heap
          let obj := alloc.1
          if chHead c2 == 91 then
            let h := hupd alloc.2 obj (fun o => { o with type := .array })
            let P2 := { P with state := UclPState.value, heap := h,
                               cur_obj := some obj, top_obj := some obj,
                               stack := obj :: P.stack }
            ucl_state_machine_loop H fuel P2 (ucl_chunk_skipc c2) cM e2
          else
            let h := hupd alloc.2 obj (fun o => { o with type := .object })
            let P2 := { P with state := UclPState.key, heap := h,
                               cur_obj := some obj, top_obj := some obj,
                               stack := obj :: P.stack }
            let c3 := if chHead c2 == 123 then ucl_chunk_skipc c2 else c2
            ucl_state_machine_loop H fuel P2 c3 cM e2
      | .key =>
        let c1 := ucl_ws_unsafe_skip c
        if chHead c1 == 125 then
          ucl_state_machine_loop H fuel { P with state := UclPState.afterValue } c1 cM e
        else
          match ucl_parse_key (fuel + 1) P c1 e with
          | none => none
          | some (false, P2, c2, e2) =>
            some (false, { P2 with prev_state := P2.state, state := .error }, c2, e2)
          | some (true, P2, c2, e2) =>
            if P2.state ≠ .macroName then
              ucl_state_machine_loop H fuel { P2 with state := UclPState.value } c2 cM e2
            else
              ucl_state_machine_loop H fuel P2 c2 c2.rest e2
      | .value =>
        match ucl_parse_value (fuel + 1) P c e with
        | none => none
        | some (false, P2, c2, e2) =>
          some (false, { P2 with prev_state := P2.state, state := .error }, c2, e2)
        | some (true, P2, c2, e2) =>
          ucl_state_machine_loop H fuel P2 c2 cM e2
      | .afterValue =>
        match ucl_parse_after_value (fuel + 1) P c e with
        | none => none
        | some (false, P2, c2, e2) =>
          some (false, { P2 with prev_state := P2.state, state := .error }, c2, e2)
        | some (true, P2, c2, e2) =>
          match P2.stack with
          | [] => some (true, P2, c2, e2)
          | top :: _ =>
            let st := if (hget P2.heap top).type == .object then UclPState.key
                      else UclPState.value
            ucl_state_machine_loop H fuel { P2 with state := st } c2 cM e2
      | .macroName =>
        if ¬ ucl_test_whitespace_unsafe b then
          ucl_state_machine_loop H fuel P (ucl_chunk_skipc c) cM e
        else if cM.length - c.rest.length > 0 then
          let nameB := cM.take (cM.length - c.rest.length)
          if P.macroNames.contains nameB then
            match ucl_macro_space_skip P.state (fuel + 1) c e with
            | none => none
            | some (false, c2, e2) => some (false, P, c2, e2)
            | some (true, c2, e2) =>
              ucl_state_machine_loop H fuel { P with state := UclPState.macroArg } c2 cM e2
          else
            some (false, { P with state := .error }, c, ucl_set_err e .unknownMacroName)
        else
          ucl_state_machine_loop H fuel P c cM e
      | .macroArg =>
        match ucl_parse_macro_value c e with
        | (false, _, c2, e2) =>
          some (false, { P with prev_state := P.state, state := .error }, c2, e2)
        | (true, arg, c2, e2) =>
          let P2 := { P with state := P.prev_state }
          match H arg P2 e2 with
          | (false, P3, e3) => some (false, P3, c2, e3)
          | (true, P3, e3) => ucl_state_machine_loop H fuel P3 c2 cM e3
      | _ => some (false, P, c, e)

/-- `ucl_state_machine` entry: run the loop on the head chunk and write
the final chunk back into the parser. -/
def ucl_state_machine (H : UclMacroHandler) (fuel : Nat) (P : UclParser)
    (e : Option UclErrMsg) : Option (Bool × UclParser × Option UclErrMsg) :=
  match P.chunks with
  | [] => some (true, P, e)
  | c :: rest =>
    match ucl_state_machine_loop H fuel P c [] e with
    | none => none
    | some (r, P2, c2, e2) => some (r, { P2 with chunks := c2 :: rest }, e2)

/-- `ucl_parser_register_macro` (`ucl_parser.c` lines 1398-1410):
the model records only the registered names. -/
def ucl_parser_register_macro (P : UclParser) (name : List Byte) : UclParser :=
  { P with macroNames := P.macroNames ++ [name] }

/-- `ucl_parser_new` (`ucl_parser.c` lines 1382-1396): a zeroed parser
with `include` and `includes` pre-registered and the given flags. -/
def ucl_parser_new (flags : Nat) : UclParser :=
  let P0 : UclParser := {}
  let P1 := ucl_parser_register_macro P0
    (cstr ['i', 'n', 'c', 'l', 'u', 'd', 'e'])
  let P2 := ucl_parser_register_macro P1
    (cstr ['i', 'n', 'c', 'l', 'u', 'd', 'e', 's'])
  { P2 with flags := flags }

/-- `ucl_parser_add_chunk` (`ucl_parser.c` lines 1413-1440): rejected
outright in the ERROR state; otherwise a fresh chunk (line 1, column 0)
is prepended, `recursion` is incremented — and never decremented — and
parsing fails with the nesting error when it exceeds
`UCL_MAX_RECURSION`. -/
def ucl_parser_add_chunk (H : UclMacroHandler) (fuel : Nat) (P : UclParser)
    (data : List Byte) (e : Option UclErrMsg) :
    Option (Bool × UclParser × Option UclErrMsg) :=
  if P.state ≠ UclPState.error then
    let chunk : UclChunk := { rest := data, line := 1, column := 0, remain := data.length }
    let P1 := { P with chunks := chunk :: P.chunks, recursion := P.recursion + 1 }
    if UCL_MAX_RECURSION < P1.recursion then
      some (false, P1, ucl_set_err e .maxNestingReached)
    else ucl_state_machine H fuel P1 e
  else some (false, P, ucl_set_err e .invalidParserState)

/-- Modelled from the spec: `ucl_object_ref` is declared in `ucl.h` but
its translation unit is absent; per the spec it bumps the reference count
and returns the same object. -/
def ucl_object_ref (h : List ObjData) (i : Nat) : Nat × List ObjData :=
  (i, hupd h i (fun o => { o with ref := o.ref + 1 }))

/-- `ucl_parser_get_object` (`ucl_util.c` lines 172-180): NULL in the
INIT and ERROR states, otherwise a reference to the top object.  The
model returns the object id (or `none`) and the heap after the refcount
bump. -/
def ucl_parser_get_object (P : UclParser) : Option Nat × UclParser :=
  if P.state ≠ UclPState.init ∧ P.state ≠ UclPState.error then
    match P.top_obj with
    | some t =>
      let r := ucl_object_ref P.heap t
      (some r.1, { P with heap := r.2 })
    | none => (none, P)
  else (none, P)

/-- The emitter formats, `enum ucl_emitter` of `ucl.h`. -/
inductive UclEmitType where
  | json
  | jsonCompact
  | config
  | yaml
deriving DecidableEq, Repr

/-- `ucl_add_tabs` (`ucl_emitter.c` lines 120-127). -/
def ucl_add_tabs (tabs : Nat) (compact : Bool) : List Byte :=
  if ¬ compact ∧ 0 < tabs then List.replicate (tabs * 4) 32 else []

/-- The escape table of `ucl_elt_string_write_json` (lines 150-173): each
JSON-unsafe byte has a two-byte escape. -/
def jsonEscapeByte (b : Byte) : List Byte :=
  if b == 10 then [92, 110]
  else if b == 13 then [92, 114]
  else if b == 8 then [92, 98]
  else if b == 9 then [92, 116]
  else if b == 12 then [92, 102]
  else if b == 92 then [92, 92]
  else if b == 34 then [92, 34]
  else []

/-- `ucl_elt_string_write_json` (`ucl_emitter.c` lines 134-189): quote
(except for YAML) and escape the JSON-unsafe bytes. -/
def ucl_elt_string_write_json (s : List Byte) (id : UclEmitType) : List Byte :=
  let quote : List Byte := if id ≠ UclEmitType.yaml then [34] else []
  quote ++
    s.flatMap (fun b => if ucl_test_json_unsafe b then jsonEscapeByte b else [b]) ++
    quote

/-- `UCL_EMIT_IDENT_TOP_OBJ` (`ucl_emitter.c` line 115). -/
def UCL_EMIT_IDENT_TOP_OBJ (top oid : Nat) (id : UclEmitType) : Bool :=
  top ≠ oid || (id == UclEmitType.jsonCompact || id == UclEmitType.json)

/-- Decimal digits of a natural number (`printf` `%jd` for `int64_t`). -/
def natToDecBytes (n : Nat) : List Byte :=
  (Nat.toDigits 10 n).map Char.toNat

/-- `ucl_utstring_append_int` (`ucl_emitter.c` lines 520-526). -/
def ucl_utstring_append_int (v : Int) : List Byte :=
  if v < 0 then 45 :: natToDecBytes (Int.toNat (-v)) else natToDecBytes v.toNat

/-- Modelled from the spec: `ucl_object_toint`, declared in `ucl.h` with
its translation unit absent; per the spec it returns the integer value of
int values and truncates float/time values. -/
def ucl_object_toint (o : ObjData) : Int :=
  match o.type with
  | .int => o.iv
  | .float => ratTrunc o.dv
  | .time => ratTrunc o.dv
  | _ => 0

/-- Modelled from the spec: `ucl_object_todouble`, declared in `ucl.h`
with its translation unit absent; per the spec it returns the double
value of float/time values and widens int values. -/
def ucl_object_todouble (o : ObjData) : ℚ :=
  match o.type with
  | .float => o.dv
  | .time => o.dv
  | .int => (o.iv : ℚ)
  | _ => 0

/-- `ucl_emitter_common_end_object` (lines 196-216): decrement the indent
and close the brace (with a newline for non-config formats).  `ident` is
the indent before the decrement. -/
def ucl_emitter_common_end_object_bytes (top oid : Nat) (id : UclEmitType)
    (ident : Nat) (compact : Bool) : List Byte :=
  if UCL_EMIT_IDENT_TOP_OBJ top oid id then
    if compact then [125]
    else (if id ≠ UclEmitType.config then [10] else []) ++
      ucl_add_tabs (ident - 1) compact ++ [125]
  else []

/-- `ucl_emitter_common_end_array` (lines 223-242). -/
def ucl_emitter_common_end_array_bytes (id : UclEmitType) (ident : Nat)
    (compact : Bool) : List Byte :=
  if compact then [93]
  else (if id ≠ UclEmitType.config then [10] else []) ++
    ucl_add_tabs (ident - 1) compact ++ [93]

mutual

/-- `ucl_emitter_common_elt` (`ucl_emitter.c` lines 352-455): separator,
tabs, optional key, the value by type, and the config trailer.  `top` is
`ctx->top`, `ident` the current indent; `h` the heap.  Fueled against
cyclic heaps (the source recursion is unbounded). -/
def ucl_emitter_common_elt (fD : ℚ → List Byte) (h : List ObjData)
    (id : UclEmitType) (top : Nat) (compact : Bool) :
    Nat → Nat → Nat → Bool → Bool → List Byte
  | 0, _, _, _, _ => []
  | fuel + 1, ident, oid, first, printKey =>
    let o := hget h oid
    let sep : List Byte :=
      if id ≠ UclEmitType.config ∧ ¬ first then
        if compact then [44] else [44, 10]
      else []
    let keyB : List Byte :=
      if printKey then
        if id == UclEmitType.config then
          (if o.flags &&& 4 ≠ 0 then
            ucl_elt_string_write_json (o.key.take o.keylen) id
          else o.key.take o.keylen) ++
          (if o.type ≠ UclType.object ∧ o.type ≠ UclType.array then
            [32, 61, 32] else [32])
        else
          (if 0 < o.keylen then ucl_elt_string_write_json (o.key.take o.keylen) id
           else cstr ['n', 'u', 'l', 'l']) ++
          (if compact then [58] else [58, 32])
      else []
    let valB : List Byte :=
      match o.type with
      | .int => ucl_utstring_append_int (ucl_object_toint o)
      | .float => fD (ucl_object_todouble o)
      | .time => fD (ucl_object_todouble o)
      | .boolean =>
        if o.iv ≠ 0 then cstr ['t', 'r', 'u', 'e'] else cstr ['f', 'a', 'l', 's', 'e']
      | .str => ucl_elt_string_write_json (o.sv.take o.len) id
      | .null => cstr ['n', 'u', 'l', 'l']
      | .object =>
        ucl_emitter_common_start_object fD h id top compact fuel ident oid ++
        ucl_emitter_common_end_object_bytes top oid id
          (if UCL_EMIT_IDENT_TOP_OBJ top oid id then ident + 1 else ident) compact
      | .array =>
        ucl_emitter_common_start_array fD h id top compact fuel ident o.aelts ++
        ucl_emitter_common_end_array_bytes id (ident + 1) compact
      | .userdata => []
    let trailer : List Byte :=
      if id == UclEmitType.config ∧ oid ≠ top then
        if o.type ≠ UclType.object ∧ o.type ≠ UclType.array then
          if printKey then [59, 10] else [44, 10]
        else [10]
      else []
    sep ++ ucl_add_tabs ident compact ++ keyB ++ valB ++ trailer
termination_by structural f i o a b => f

/-- `ucl_emitter_common_start_array` (lines 249-276): open the bracket,
bump the indent and emit every element of the `next` chain. -/
def ucl_emitter_common_start_array (fD : ℚ → List Byte) (h : List ObjData)
    (id : UclEmitType) (top : Nat) (compact : Bool) :
    Nat → Nat → List Nat → List Byte
  | 0, _, _ => []
  | fuel + 1, ident, elts =>
    (if compact then [91] else [91, 10]) ++
    (elts.enum.flatMap (fun ei =>
      ucl_emitter_common_elt fD h id top compact fuel (ident + 1) ei.2
        (ei.1 == 0) false))
termination_by structural f i l => f

/-- `ucl_emitter_common_start_object` (lines 283-344): open the brace
unless a config top object, then emit each container entry; for config
the whole same-key chain is emitted as separate keyed elements, while
the other formats flatten a chain into an array at one key (a chain head
with `keylen == 0` prints the key `null`). -/
def ucl_emitter_common_start_object (fD : ℚ → List Byte) (h : List ObjData)
    (id : UclEmitType) (top : Nat) (compact : Bool) :
    Nat → Nat → Nat → List Byte
  | 0, _, _ => []
  | fuel + 1, ident, oid =>
    let o := hget h oid
    let opened := UCL_EMIT_IDENT_TOP_OBJ top oid id
    let ident2 := if opened then ident + 1 else ident
    (if opened then if compact then [123] else [123, 10] else []) ++
    (o.entries.enum.flatMap (fun ci =>
      let cur := ci.2
      let first := ci.1 == 0
      if id == UclEmitType.config then
        (cur :: (hget h cur).sibs).flatMap (fun el =>
          ucl_emitter_common_elt fD h id top compact fuel ident2 el first true)
      else
        if (hget h cur).sibs ≠ [] then
          (if ¬ first then if compact then [44] else [44, 10] else []) ++
          ucl_add_tabs ident2 compact ++
          (if 0 < (hget h cur).keylen then
            ucl_elt_string_write_json ((hget h cur).key.take (hget h cur).keylen) id
          else cstr ['n', 'u', 'l', 'l']) ++
          (if compact then [58] else [58, 32]) ++
          ucl_emitter_common_start_array fD h id top compact fuel ident2
            (cur :: (hget h cur).sibs) ++
          ucl_emitter_common_end_array_bytes id (ident2 + 1) compact
        else
          ucl_emitter_common_elt fD h id top compact fuel ident2 cur first true))
termination_by structural f i o => f

end

/-- `ucl_object_emit` / `ucl_object_emit_full` (lines 548-598): start at
indent 0 with the object itself as `ctx->top`, `first = true` and no
key. -/
def ucl_object_emit (fD : ℚ → List Byte) (h : List ObjData) (oid : Nat)
    (id : UclEmitType) (fuel : Nat) : List Byte :=
  let compact := id == UclEmitType.jsonCompact
  ucl_emitter_common_elt fD h id oid compact fuel 0 oid true false

/-- `ucl_hash_node_t` (`ucl_hash.h`): the model keeps the stored object
(`data`, as an id) and the 32-bit hash (`key`); bucket membership lives
in the table. -/
structure UclHashNode where
  data : Nat
  key : Nat
deriving DecidableEq, Repr

/-- `ucl_hash_t` (`ucl_hash.c` variant of the header): the linear
hashtable.  The segmented `bucket[]` arrays are flattened into one list
indexed by the bucket position (`ucl_hash_pos` maps each position to a
unique slot; the model indexes positions directly).  `nodes` is the
`nodes_head`/`nodes_tail` insertion-order element list, `arena` gives
each node id its contents.  `state`: 0 stable, 1 grow, 2 shrink. -/
structure UclHash where
  buckets : List (List Nat)
  bucket_bit : Nat
  bucket_max : Nat
  bucket_mask : Nat
  low_max : Nat
  low_mask : Nat
  split : Nat
  state : Nat
  count : Nat
  nodes : List Nat
  arena : List UclHashNode
deriving DecidableEq, Repr

/-- `UCL_HASHLIN_BIT` (`ucl_hash.h`). -/
def UCL_HASHLIN_BIT : Nat := 6

def bget (b : List (List Nat)) (i : Nat) : List Nat := b.getD i []

def bset (b : List (List Nat)) (i : Nat) (v : List Nat) : List (List Nat) :=
  b.set i v

def aget (a : List UclHashNode) (i : Nat) : UclHashNode := a.getD i ⟨0, 0⟩

/-- `ucl_hash_create` (`ucl_hash.c` lines 80-103): 64 empty buckets,
stable state (the `low_*`/`split` fields are left 0). -/
def ucl_hash_create : UclHash :=
  { buckets := List.replicate (2 ^ UCL_HASHLIN_BIT) []
    bucket_bit := UCL_HASHLIN_BIT
    bucket_max := 2 ^ UCL_HASHLIN_BIT
    bucket_mask := 2 ^ UCL_HASHLIN_BIT - 1
    low_max := 0, low_mask := 0, split := 0, state := 0, count := 0
    nodes := [], arena := [] }

/-- `ucl_hash_bucket_ptr` (lines 146-169): during a reallocation, a
position not yet split keeps its old (low-mask) bucket. -/
def ucl_hash_bucket_ptr (hl : UclHash) (hash : Nat) : Nat :=
  if hl.state ≠ 0 ∧ hl.split ≤ hash &&& hl.low_mask then hash &&& hl.low_mask
  else hash &&& hl.bucket_mask

/-- The split loop of `ucl_hash_grow_step` (lines 186-230): redistribute
the bucket at `split` between itself and its high twin by the new mask
bit, preserving in-bucket order (`DL_APPEND`), until the split target is
reached or the table is fully split.  The fuel is an upper bound on the
iterations (the loop advances `split` each time). -/
def ucl_hash_grow_loop : Nat → UclHash → UclHash
  | 0, hl => hl
  | n + 1, hl =>
    if hl.split + hl.low_max < 2 * hl.count then
      let lowPos := hl.split
      let highPos := hl.low_max + hl.split
      let items := bget hl.buckets lowPos
      let mask := hl.bucket_mask &&& (2 ^ 32 - 1 - hl.low_mask)
      let part := items.partition (fun nid => (aget hl.arena nid).key &&& mask == 0)
      let b2 := bset (bset hl.buckets lowPos part.1) highPos part.2
      let hl2 := { hl with buckets := b2, split := hl.split + 1 }
      if hl2.split == hl2.low_max then { hl2 with state := 0 }
      else ucl_hash_grow_loop n hl2
    else hl

/-- `ucl_hash_grow_step` (lines 174-231): enter the grow state when more
than half full (doubling the bucket space), then split ahead of the
load. -/
def ucl_hash_grow_step (hl : UclHash) : UclHash :=
  let hl1 :=
    if hl.state ≠ 1 ∧ hl.bucket_max / 2 < hl.count then
      let hl0 :=
        if hl.state == 0 then
          { hl with
            low_max := hl.bucket_max, low_mask := hl.bucket_mask,
            bucket_bit := hl.bucket_bit + 1,
            bucket_max := 2 ^ (hl.bucket_bit + 1),
            bucket_mask := 2 ^ (hl.bucket_bit + 1) - 1,
            buckets := hl.buckets ++ List.replicate hl.bucket_max [],
            split := 0 }
        else hl
      { hl0 with state := 1 }
    else hl
  if hl1.state == 1 then ucl_hash_grow_loop (hl1.low_max + 1) hl1 else hl1

/-- The merge loop of `ucl_hash_shrink_step` (lines 262-297): walk
`split` backwards concatenating each high twin onto its low bucket
(`DL_CONCAT`); at zero, halve the table. -/
def ucl_hash_shrink_loop : Nat → UclHash → UclHash
  | 0, hl => hl
  | n + 1, hl =>
    if 8 * hl.count < hl.split + hl.low_max then
      let hl1 := { hl with split := hl.split - 1 }
      let lowPos := hl1.split
      let highPos := hl1.low_max + hl1.split
      let merged := bget hl1.buckets lowPos ++ bget hl1.buckets highPos
      let b2 := bset (bset hl1.buckets lowPos merged) highPos []
      let hl2 := { hl1 with buckets := b2 }
      if hl2.split == 0 then
        { hl2 with
          state := 0, bucket_bit := hl2.bucket_bit - 1,
          bucket_max := hl2.bucket_max / 2,
          bucket_mask := hl2.bucket_max / 2 - 1,
          buckets := b2.take (hl2.bucket_max / 2) }
      else ucl_hash_shrink_loop n hl2
    else hl

/-- `ucl_hash_shrink_step` (lines 236-298): enter the shrink state below
one-eighth load (never below the initial 64 buckets), then merge behind
the load. -/
def ucl_hash_shrink_step (hl : UclHash) : UclHash :=
  let hl1 :=
    if hl.state ≠ 2 ∧ hl.count < hl.bucket_max / 8 then
      if UCL_HASHLIN_BIT < hl.bucket_bit then
        let hl0 :=
          if hl.state == 0 then
            { hl with
            low_max := hl.bucket_max / 2,
            low_mask := hl.bucket_mask / 2, split := hl.bucket_max / 2 }
          else hl
        { hl0 with state := 2 }
      else hl
    else hl
  if hl1.state == 2 then ucl_hash_shrink_loop (hl1.split + 1) hl1 else hl1

/-- `ucl_hash_insert` (`ucl_hash.c` lines 332-362): append the node to
its bucket AND append a fresh element to the `nodes_head` iteration
list, bump the count and run a grow step. -/
def ucl_hash_insert (hl : UclHash) (data : Nat) (hash : Nat) : UclHash :=
  let nid := hl.arena.length
  let pos := ucl_hash_bucket_ptr hl hash
  let hl1 :=
    { hl with
      arena := hl.arena ++ [⟨data, hash⟩],
      buckets := bset hl.buckets pos (bget hl.buckets pos ++ [nid]),
      nodes := hl.nodes ++ [nid],
      count := hl.count + 1 }
  ucl_hash_grow_step hl1

/-- `ucl_hash_remove` (lines 386-408): find the first matching node in
its bucket, `DL_DELETE` it from the bucket, decrement the count and run
a shrink step.  The `nodes_head` iteration list is left untouched. -/
def ucl_hash_remove (hl : UclHash) (pred : Nat → Bool) (hash : Nat) :
    Option Nat × UclHash :=
  let pos := ucl_hash_bucket_ptr hl hash
  let bucket := bget hl.buckets pos
  match bucket.find? (fun nid =>
      (aget hl.arena nid).key == hash && pred (aget hl.arena nid).data) with
  | none => (none, hl)
  | some nid =>
    let hl1 := { hl with
                 buckets := bset hl.buckets pos (bucket.erase nid),
                 count := hl.count - 1 }
    (some (aget hl.arena nid).data, ucl_hash_shrink_step hl1)

/-- `ucl_hash_search` (`ucl_hash.h`): scan the bucket for a key and
predicate match. -/
def ucl_hash_search (hl : UclHash) (pred : Nat → Bool) (hash : Nat) :
    Option Nat :=
  ((bget hl.buckets (ucl_hash_bucket_ptr hl hash)).find? (fun nid =>
      (aget hl.arena nid).key == hash && pred (aget hl.arena nid).data)).map
    (fun nid => (aget hl.arena nid).data)

/-- `ucl_hash_iterate` (`ucl_hash.c` lines 475-489): a circular walk of
the `nodes_head` element list; the iterator holds the element to visit
(modelled as an index into `nodes`), wraps to the head at the tail, and
ends when the head comes around again.  Iterating an empty table
dereferences NULL in C; the model returns `none`. -/
def ucl_hash_iterate (hl : UclHash) (iter : Option Nat) :
    Option (Nat × Option Nat) :=
  match iter with
  | none =>
    match hl.nodes with
    | [] => none
    | n0 :: _ =>
      some ((aget hl.arena n0).data,
        if 1 < hl.nodes.length then some 1 else some 0)
  | some i =>
    if i == 0 then none
    else
      some ((aget hl.arena (hl.nodes.getD i 0)).data,
        if i + 1 < hl.nodes.length then some (i + 1) else some 0)

/-- Driving `ucl_hash_iterate` to exhaustion (the emitter's
`while ((cur = ucl_hash_iterate (...)))` pattern): the visit list. -/
def ucl_hash_iterate_go (hl : UclHash) : Nat → Option Nat → List Nat
  | 0, _ => []
  | fuel + 1, iter =>
    match ucl_hash_iterate hl iter with
    | none => []
    | some (d, iter2) => d :: ucl_hash_iterate_go hl fuel iter2

/-- All values an iteration visits, in visit order. -/
def ucl_hash_iterate_all (hl : UclHash) : List Nat :=
  ucl_hash_iterate_go hl (hl.nodes.length + 1) none

/-- `enum ucl_schema_error_code` (`ucl.h`). -/
inductive UclSchemaErrCode where
  | ok
  | typeMismatch
  | invalidSchema
  | missingProperty
  | constraint
  | missingDependency
  | unknown
deriving DecidableEq, Repr

/-- `struct ucl_schema_error` (`ucl.h`); the printf-formatted `msg`
buffer is not modelled, the code and offending object are. -/
structure SErr where
  code : UclSchemaErrCode := .ok
  obj : Option Nat := none
deriving DecidableEq, Repr

/-- `ucl_schema_create_error` (`ucl_schema.c` lines 116-129): an
unconditional overwrite of the error record. -/
def ucl_schema_create_error (_e : SErr) (c : UclSchemaErrCode) (o : Nat) : SErr :=
  { code := c, obj := some o }

/-- Modelled from the spec: `ucl_object_find_key` (declared in `ucl.h`,
translation unit absent) finds the chain head stored under a
NUL-terminated key. -/
def ucl_object_find_key (h : List ObjData) (oid : Nat) (key : List Byte) :
    Option Nat :=
  (hget h oid).entries.find? (fun t => (hget h t).key == key)

/-- Modelled from the spec: `ucl_iterate_object` with
`expand_values = true` yields an object's container entries (the chain
heads, via the hash iteration) or an array's elements, and otherwise
walks the implicit same-key chain of the value itself. -/
def ucl_iterate_object (h : List ObjData) (oid : Nat) (expand : Bool) :
    List Nat :=
  if expand ∧ (hget h oid).type == UclType.object then (hget h oid).entries
  else if expand ∧ (hget h oid).type == UclType.array then (hget h oid).aelts
  else oid :: (hget h oid).sibs

/-- Modelled from the spec: `ucl_object_toboolean`. -/
def ucl_object_toboolean (o : ObjData) : Bool :=
  o.type == UclType.boolean && o.iv ≠ 0

/-- Modelled from the spec: `ucl_object_tostring` (the NUL-terminated
string value). -/
def ucl_object_tostring (o : ObjData) : List Byte :=
  match o.type with
  | .str => o.sv
  | _ => []

/-- Modelled from the spec: `ucl_object_toint_safe` converts int and
time/float values and refuses the rest. -/
def ucl_object_toint_safe (o : ObjData) : Option Int :=
  match o.type with
  | .int => some o.iv
  | .float => some (ratTrunc o.dv)
  | .time => some (ratTrunc o.dv)
  | _ => none

/-- `strcasecmp` equality on byte strings. -/
def strcaseeq (a b : List Byte) : Bool :=
  a.map c_tolower == b.map c_tolower

/-- `ucl_string_to_type` (`ucl_schema.c` lines 47-75): map a type name
to a tag (`number` means float). -/
def ucl_string_to_type (s : List Byte) : Option UclType :=
  if strcaseeq s (cstr ['o', 'b', 'j', 'e', 'c', 't']) then some .object
  else if strcaseeq s (cstr ['a', 'r', 'r', 'a', 'y']) then some .array
  else if strcaseeq s (cstr ['i', 'n', 't', 'e', 'g', 'e', 'r']) then some .int
  else if strcaseeq s (cstr ['n', 'u', 'm', 'b', 'e', 'r']) then some .float
  else if strcaseeq s (cstr ['s', 't', 'r', 'i', 'n', 'g']) then some .str
  else if strcaseeq s (cstr ['b', 'o', 'o', 'l', 'e', 'a', 'n']) then some .boolean
  else if strcaseeq s (cstr ['n', 'u', 'l', 'l']) then some .null
  else none

/-- Modelled from the spec: `ucl_object_compare` (translation unit
absent) orders equal-typed values by their content and unequal types by
tag, recursing into containers; only its zero/non-zero result is
consumed here, as equality. -/
def ucl_object_compare_eq (h : List ObjData) : Nat → Nat → Nat → Bool
  | 0, _, _ => false
  | fuel + 1, a, b =>
    let oa := hget h a
    let ob := hget h b
    if oa.type ≠ ob.type then false
    else match oa.type with
    | .int => oa.iv == ob.iv
    | .float => oa.dv == ob.dv
    | .time => oa.dv == ob.dv
    | .str => oa.sv == ob.sv
    | .boolean => oa.iv == ob.iv
    | .null => true
    | .userdata => a == b
    | .array =>
      oa.aelts.length == ob.aelts.length &&
        (oa.aelts.zip ob.aelts).all (fun p => ucl_object_compare_eq h fuel p.1 p.2)
    | .object =>
      oa.entries.length == ob.entries.length &&
        oa.entries.all (fun ea =>
          match ucl_object_find_key h b (hget h ea).key with
          | some eb => ucl_object_compare_eq h fuel ea eb
          | none => false)

/-- Rounding to the nearest integer, ties to even (C `remainder`). -/
def roundEven (q : ℚ) : Int :=
  let f := Int.floor q
  let r := q - (f : ℚ)
  if r < 1 / 2 then f
  else if 1 / 2 < r then f + 1
  else if f % 2 == 0 then f else f + 1

/-- The loop of `ucl_schema_validate_number` (`ucl_schema.c` lines
293-357).  The `exclusive` flag is a single local shared by the
`maximum` and `minimum` branches: once one branch sets it, it stays set
for the following iterations.  Returns the result, the final flag and
the error record. -/
def ucl_schema_validate_number_loop (h : List ObjData) (schema obj : Nat) :
    List Nat → Bool → SErr → Bool × Bool × SErr
  | [], exclusive, err => (true, exclusive, err)
  | elt :: rest, exclusive, err =>
    let o := hget h elt
    let isNum := o.type == UclType.float || o.type == UclType.int
    if isNum ∧ o.key == cstr ['m', 'u', 'l', 't', 'i', 'p', 'l', 'e', 'O', 'f'] then
      let constraint := ucl_object_todouble o
      if constraint ≤ 0 then
        (false, exclusive, ucl_schema_create_error err .invalidSchema elt)
      else
        let val := ucl_object_todouble (hget h obj)
        if 1 / 10 ^ (16 : ℕ) < |val - constraint * (roundEven (val / constraint) : ℚ)| then
          (false, exclusive, ucl_schema_create_error err .constraint obj)
        else ucl_schema_validate_number_loop h schema obj rest exclusive err
    else if isNum ∧ o.key == cstr ['m', 'a', 'x', 'i', 'm', 'u', 'm'] then
      let constraint := ucl_object_todouble o
      let test := ucl_object_find_key h schema
        (cstr ['e', 'x', 'c', 'l', 'u', 's', 'i', 'v', 'e', 'M', 'a', 'x', 'i', 'm', 'u', 'm'])
      let exclusive2 :=
        match test with
        | some t =>
          if (hget h t).type == UclType.boolean then ucl_object_toboolean (hget h t)
          else exclusive
        | none => exclusive
      let val := ucl_object_todouble (hget h obj)
      if decide (constraint < val) || (exclusive2 && decide (constraint ≤ val)) then
        (false, exclusive2, ucl_schema_create_error err .constraint obj)
      else ucl_schema_validate_number_loop h schema obj rest exclusive2 err
    else if isNum ∧ o.key == cstr ['m', 'i', 'n', 'i', 'm', 'u', 'm'] then
      let constraint := ucl_object_todouble o
      let test := ucl_object_find_key h schema
        (cstr ['e', 'x', 'c', 'l', 'u', 's', 'i', 'v', 'e', 'M', 'i', 'n', 'i', 'm', 'u', 'm'])
      let exclusive2 :=
        match test with
        | some t =>
          if (hget h t).type == UclType.boolean then ucl_object_toboolean (hget h t)
          else exclusive
        | none => exclusive
      let val := ucl_object_todouble (hget h obj)
      if decide (val < constraint) || (exclusive2 && decide (val ≤ constraint)) then
        (false, exclusive2, ucl_schema_create_error err .constraint obj)
      else ucl_schema_validate_number_loop h schema obj rest exclusive2 err
    else ucl_schema_validate_number_loop h schema obj rest exclusive err

/-- `ucl_schema_validate_number` entry: scan the schema entries with the
flag initially false. -/
def ucl_schema_validate_number (h : List ObjData) (schema obj : Nat)
    (err : SErr) : Bool × SErr :=
  let r := ucl_schema_validate_number_loop h schema obj
    (ucl_iterate_object h schema true) false err
  (r.1, r.2.2)

/-- The loop of `ucl_schema_validate_string` (lines 359-395). -/
def ucl_schema_validate_string_loop (h : List ObjData) (obj : Nat) :
    List Nat → SErr → Bool × SErr
  | [], err => (true, err)
  | elt :: rest, err =>
    let o := hget h elt
    if o.type == UclType.int ∧
        o.key == cstr ['m', 'a', 'x', 'L', 'e', 'n', 'g', 't', 'h'] then
      if (((hget h obj).len : Int)) > ucl_object_toint o then
        (false, ucl_schema_create_error err .constraint obj)
      else ucl_schema_validate_string_loop h obj rest err
    else if o.type == UclType.int ∧
        o.key == cstr ['m', 'i', 'n', 'L', 'e', 'n', 'g', 't', 'h'] then
      if (((hget h obj).len : Int)) < ucl_object_toint o then
        (false, ucl_schema_create_error err .constraint obj)
      else ucl_schema_validate_string_loop h obj rest err
    else ucl_schema_validate_string_loop h obj rest err

/-- `ucl_schema_validate_string` entry. -/
def ucl_schema_validate_string (h : List ObjData) (schema obj : Nat)
    (err : SErr) : Bool × SErr :=
  ucl_schema_validate_string_loop h obj (ucl_iterate_object h schema true) err

/-- `ucl_schema_array_is_unique` (lines 414-446), with the comparison
tree modelled by its contract (the set of already-seen elements): fail
on the first element equal to an earlier one. -/
def ucl_schema_array_is_unique_loop (h : List ObjData) (cmpFuel : Nat) :
    List Nat → List Nat → SErr → Bool × SErr
  | [], _, err => (true, err)
  | elt :: rest, seen, err =>
    if seen.any (fun s => ucl_object_compare_eq h cmpFuel s elt) then
      (false, ucl_schema_create_error err .constraint elt)
    else ucl_schema_array_is_unique_loop h cmpFuel rest (elt :: seen) err

/-- `ucl_schema_array_is_unique` entry. -/
def ucl_schema_array_is_unique (h : List ObjData) (obj : Nat) (err : SErr) :
    Bool × SErr :=
  ucl_schema_array_is_unique_loop h (h.length + 1)
    (ucl_iterate_object h obj true) [] err

/-- `ucl_schema_type_is_allowed` (lines 565-609): no `type` entry allows
everything; an array of type names allows any of them (errors written by
failed attempts stay in the record); a string name must match the
object's tag, with TIME and INT also accepted for `number`. -/
def ucl_schema_type_is_allowed (h : List ObjData) :
    Nat → Option Nat → Nat → SErr → Bool × SErr
  | 0, _, _, err => (false, err)
  | _ + 1, none, _, err => (true, err)
  | fuel + 1, some ty, obj, err =>
    let oty := hget h ty
    if oty.type == UclType.array then
      (oty.aelts.foldl (fun acc elt =>
        if acc.1 then acc
        else
          let r := ucl_schema_type_is_allowed h fuel (some elt) obj acc.2
          (r.1, r.2)) (false, err))
    else if oty.type == UclType.str then
      match ucl_string_to_type (ucl_object_tostring oty) with
      | none => (false, ucl_schema_create_error err .invalidSchema ty)
      | some t =>
        let ot := (hget h obj).type
        if ot ≠ t then
          if ot == UclType.time ∧ t == UclType.float then (true, err)
          else if ot == UclType.int ∧ t == UclType.float then (true, err)
          else (false, ucl_schema_create_error err .typeMismatch obj)
        else (true, err)
    else (false, err)

/-- `ucl_schema_validate_enum` (lines 616-637). -/
def ucl_schema_validate_enum (h : List ObjData) (en obj : Nat) (err : SErr) :
    Bool × SErr :=
  if (ucl_iterate_object h en true).any
      (fun elt => ucl_object_compare_eq h (h.length + 1) elt obj) then
    (true, err)
  else (false, ucl_schema_create_error err .constraint obj)

/-- `ucl_schema_test_pattern` (`ucl_schema.c` lines 135-151): the first
element of the container whose key the POSIX regex accepts.  The regex
engine is the platform's; the model takes the match relation `rm`
(pattern, key) as a parameter. -/
def ucl_schema_test_pattern (rm : List Byte → List Byte → Bool)
    (h : List ObjData) (obj : Nat) (pattern : List Byte) : Option Nat :=
  (ucl_iterate_object h obj true).find? (fun elt => rm pattern (hget h elt).key)

/-- The required-properties loop of `ucl_schema_validate_object` (lines
273-285). -/
def ucl_schema_required_loop (h : List ObjData) (obj : Nat) :
    List Nat → SErr → Bool × SErr
  | [], err => (true, err)
  | elt :: rest, err =>
    if ucl_object_find_key h obj (ucl_object_tostring (hget h elt)) == none then
      (false, ucl_schema_create_error err .missingProperty obj)
    else ucl_schema_required_loop h obj rest err

mutual

/-- The `properties`/`patternProperties` loop of
`ucl_schema_validate_object` (lines 166-175 and 227-234): validate each
found property against its sub-schema, stopping at the first failure.
When `pat` is true the property is located by pattern, else by key. -/
def ucl_schema_props_loop (rm : List Byte → List Byte → Bool)
    (h : List ObjData) (obj : Nat) (retU : Bool) (pat : Bool) :
    Nat → List Nat → SErr → Option (Bool × SErr)
  | 0, _, _ => none
  | _ + 1, [], err => some (true, err)
  | fuel + 1, prop :: rest, err =>
    let found :=
      if pat then ucl_schema_test_pattern rm h obj (hget h prop).key
      else ucl_object_find_key h obj (hget h prop).key
    match found with
    | some f =>
      match ucl_schema_validate rm h prop f true retU fuel err with
      | none => none
      | some (r, e2) =>
        if r then ucl_schema_props_loop rm h obj retU pat fuel rest e2
        else some (false, e2)
    | none => ucl_schema_props_loop rm h obj retU pat fuel rest err
termination_by structural f l e => f

/-- One schema validated against a list of candidates (the
`items`-as-object loop, lines 478-481, and the `additionalItems` tail,
lines 544-551). -/
def ucl_schema_validate_list_loop (rm : List Byte → List Byte → Bool)
    (h : List ObjData) (sch : Nat) (tryArr retU : Bool) :
    Nat → List Nat → SErr → Option (Bool × SErr)
  | 0, _, _ => none
  | _ + 1, [], err => some (true, err)
  | fuel + 1, elt :: rest, err =>
    match ucl_schema_validate rm h sch elt tryArr retU fuel err with
    | none => none
    | some (r, e2) =>
      if r then ucl_schema_validate_list_loop rm h sch tryArr retU fuel rest e2
      else some (false, e2)
termination_by structural f l e => f

/-- The additional-properties scan of `ucl_schema_validate_object`
(lines 240-272): each candidate entry not named by `properties` and not
matched by any `patternProperties` pattern is rejected (additionals
denied) or validated against the additional schema. -/
def ucl_schema_obj_addprops_loop (rm : List Byte → List Byte → Bool)
    (h : List ObjData) (schema obj : Nat) (allowAdd : Bool)
    (addSchema : Option Nat) (retU : Bool) :
    Nat → List Nat → SErr → Option (Bool × SErr)
  | 0, _, _ => none
  | _ + 1, [], err => some (true, err)
  | fuel + 1, elt :: rest, err =>
    let prop? := ucl_object_find_key h schema
      (cstr ['p', 'r', 'o', 'p', 'e', 'r', 't', 'i', 'e', 's'])
    let found :=
      match prop? with
      | some p => ucl_object_find_key h p (hget h elt).key
      | none => none
    let found2 :=
      match found with
      | some f => some f
      | none =>
        match ucl_object_find_key h schema
          (cstr ['p', 'a', 't', 't', 'e', 'r', 'n', 'P', 'r', 'o', 'p', 'e',
                 'r', 't', 'i', 'e', 's']) with
        | some pat =>
          (ucl_iterate_object h pat true).findSome? (fun pelt =>
            ucl_schema_test_pattern rm h obj (hget h pelt).key)
        | none => none
    match found2 with
    | some _ =>
      ucl_schema_obj_addprops_loop rm h schema obj allowAdd addSchema retU
        fuel rest err
    | none =>
      if ¬ allowAdd then
        some (false, ucl_schema_create_error err .constraint obj)
      else
        match addSchema with
        | some a =>
          match ucl_schema_validate rm h a elt true retU fuel err with
          | none => none
          | some (r, e2) =>
            if r then
              ucl_schema_obj_addprops_loop rm h schema obj allowAdd addSchema
                retU fuel rest e2
            else some (false, e2)
        | none =>
          ucl_schema_obj_addprops_loop rm h schema obj allowAdd addSchema retU
            fuel rest err
termination_by structural f l e => f

/-- The schema-entry loop of `ucl_schema_validate_object` (lines
158-235), carrying `allow_additional`, `additional_schema`, `required`
and the error record. -/
def ucl_schema_validate_object_loop (rm : List Byte → List Byte → Bool)
    (h : List ObjData) (schema obj : Nat) (retU : Bool) :
    Nat → List Nat → Bool → Option Nat → Option Nat → SErr →
    Option (Bool × Bool × Option Nat × Option Nat × SErr)
  | 0, _, _, _, _, _ => none
  | _ + 1, [], allowAdd, addSchema, required, err =>
    some (true, allowAdd, addSchema, required, err)
  | fuel + 1, elt :: rest, allowAdd, addSchema, required, err =>
    let o := hget h elt
    if o.type == UclType.object ∧
        o.key == cstr ['p', 'r', 'o', 'p', 'e', 'r', 't', 'i', 'e', 's'] then
      match ucl_schema_props_loop rm h obj retU false fuel (hget h elt).entries err with
      | none => none
      | some (true, e2) =>
        ucl_schema_validate_object_loop rm h schema obj retU fuel rest
          allowAdd addSchema required e2
      | some (false, e2) => some (false, allowAdd, addSchema, required, e2)
    else if o.key == cstr ['a', 'd', 'd', 'i', 't', 'i', 'o', 'n', 'a', 'l',
        'P', 'r', 'o', 'p', 'e', 'r', 't', 'i', 'e', 's'] then
      if o.type == UclType.boolean then
        let allowAdd2 := if ¬ ucl_object_toboolean o then false else allowAdd
        ucl_schema_validate_object_loop rm h schema obj retU fuel rest
          allowAdd2 addSchema required err
      else if o.type == UclType.object then
        ucl_schema_validate_object_loop rm h schema obj retU fuel rest
          allowAdd (some elt) required err
      else
        some (false, allowAdd, addSchema, required,
          ucl_schema_create_error err .invalidSchema elt)
    else if o.key == cstr ['r', 'e', 'q', 'u', 'i', 'r', 'e', 'd'] then
      if o.type == UclType.array then
        ucl_schema_validate_object_loop rm h schema obj retU fuel rest
          allowAdd addSchema (some elt) err
      else
        some (false, allowAdd, addSchema, required,
          ucl_schema_create_error err .invalidSchema elt)
    else if o.key == cstr ['m', 'i', 'n', 'P', 'r', 'o', 'p', 'e', 'r', 't',
        'i', 'e', 's'] ∧ (ucl_object_toint_safe o).isSome then
      if ((hget h obj).len : Int) < (ucl_object_toint_safe o).getD 0 then
        some (false, allowAdd, addSchema, required,
          ucl_schema_create_error err .constraint obj)
      else
        ucl_schema_validate_object_loop rm h schema obj retU fuel rest
          allowAdd addSchema required err
    else if o.key == cstr ['m', 'a', 'x', 'P', 'r', 'o', 'p', 'e', 'r', 't',
        'i', 'e', 's'] ∧ (ucl_object_toint_safe o).isSome then
      if (ucl_object_toint_safe o).getD 0 < ((hget h obj).len : Int) then
        some (false, allowAdd, addSchema, required,
          ucl_schema_create_error err .constraint obj)
      else
        ucl_schema_validate_object_loop rm h schema obj retU fuel rest
          allowAdd addSchema required err
    else if o.key == cstr ['p', 'a', 't', 't', 'e', 'r', 'n', 'P', 'r', 'o',
        'p', 'e', 'r', 't', 'i', 'e', 's'] then
      match ucl_schema_props_loop rm h obj retU true fuel
        (ucl_iterate_object h elt true) err with
      | none => none
      | some (true, e2) =>
        ucl_schema_validate_object_loop rm h schema obj retU fuel rest
          allowAdd addSchema required e2
      | some (false, e2) => some (false, allowAdd, addSchema, required, e2)
    else
      ucl_schema_validate_object_loop rm h schema obj retU fuel rest
        allowAdd addSchema required err
termination_by structural f l a b c e => f

/-- `ucl_schema_validate_object` (lines 156-290): the schema-entry scan,
then (when it succeeded) the additional-properties scan and the required
list. -/
def ucl_schema_validate_object (rm : List Byte → List Byte → Bool)
    (h : List ObjData) (schema obj : Nat) (retU : Bool) :
    Nat → SErr → Option (Bool × SErr)
  | 0, _ => none
  | fuel + 1, err =>
    match ucl_schema_validate_object_loop rm h schema obj retU fuel
      (ucl_iterate_object h schema true) true none none err with
    | none => none
    | some (false, _, _, _, e2) => some (false, e2)
    | some (true, allowAdd, addSchema, required, e2) =>
      let step1 :=
        if ¬ allowAdd ∨ addSchema ≠ none then
          ucl_schema_obj_addprops_loop rm h schema obj allowAdd addSchema retU
            fuel (ucl_iterate_object h obj true) e2
        else some (true, e2)
      match step1 with
      | none => none
      | some (r1, e3) =>
        match required with
        | some req =>
          let r2 := ucl_schema_required_loop h obj
            (ucl_iterate_object h req true) e3
          some (r1 && r2.1, r2.2)
        | none => some (r1, e3)
termination_by structural f e => f

/-- The `items`-as-array pairing loop of `ucl_schema_validate_array`
(lines 465-477): validate positionally; leftover candidates are the
first-unvalidated tail. -/
def ucl_schema_items_loop (rm : List Byte → List Byte → Bool)
    (h : List ObjData) (retU : Bool) :
    Nat → List Nat → List Nat → SErr → Option (Bool × List Nat × SErr)
  | 0, _, _, _ => none
  | _ + 1, [], found, err => some (true, found, err)
  | fuel + 1, it :: rest, found, err =>
    match found with
    | [] => some (true, [], err)
    | f :: ftl =>
      match ucl_schema_validate rm h it f false retU fuel err with
      | none => none
      | some (r, e2) =>
        if r then ucl_schema_items_loop rm h retU fuel rest ftl e2
        else some (false, ftl, e2)
termination_by structural f l g e => f

/-- The schema-entry loop of `ucl_schema_validate_array` (lines
459-532), carrying `allow_additional`, `additional_schema`,
`need_unique` and the first-unvalidated tail. -/
def ucl_schema_validate_array_loop (rm : List Byte → List Byte → Bool)
    (h : List ObjData) (schema obj : Nat) (retU : Bool) :
    Nat → List Nat → Bool → Option Nat → Bool → List Nat → SErr →
    Option (Bool × Bool × Option Nat × Bool × List Nat × SErr)
  | 0, _, _, _, _, _, _ => none
  | _ + 1, [], allowAdd, addSchema, needUnique, firstUnval, err =>
    some (true, allowAdd, addSchema, needUnique, firstUnval, err)
  | fuel + 1, elt :: rest, allowAdd, addSchema, needUnique, firstUnval, err =>
    let o := hget h elt
    if o.key == cstr ['i', 't', 'e', 'm', 's'] then
      if o.type == UclType.array then
        match ucl_schema_items_loop rm h retU fuel
          (ucl_iterate_object h elt true) (hget h obj).aelts err with
        | none => none
        | some (true, leftover, e2) =>
          ucl_schema_validate_array_loop rm h schema obj retU fuel rest
            allowAdd addSchema needUnique leftover e2
        | some (false, _, e2) =>
          some (false, allowAdd, addSchema, needUnique, firstUnval, e2)
      else if o.type == UclType.object then
        match ucl_schema_validate_list_loop rm h elt false retU fuel
          (ucl_iterate_object h obj true) err with
        | none => none
        | some (true, e2) =>
          ucl_schema_validate_array_loop rm h schema obj retU fuel rest
            allowAdd addSchema needUnique firstUnval e2
        | some (false, e2) =>
          some (false, allowAdd, addSchema, needUnique, firstUnval, e2)
      else
        some (false, allowAdd, addSchema, needUnique, firstUnval,
          ucl_schema_create_error err .invalidSchema elt)
    else if o.key == cstr ['a', 'd', 'd', 'i', 't', 'i', 'o', 'n', 'a', 'l',
        'I', 't', 'e', 'm', 's'] then
      if o.type == UclType.boolean then
        let allowAdd2 := if ¬ ucl_object_toboolean o then false else allowAdd
        ucl_schema_validate_array_loop rm h schema obj retU fuel rest
          allowAdd2 addSchema needUnique firstUnval err
      else if o.type == UclType.object then
        ucl_schema_validate_array_loop rm h schema obj retU fuel rest
          allowAdd (some elt) needUnique firstUnval err
      else
        some (false, allowAdd, addSchema, needUnique, firstUnval,
          ucl_schema_create_error err .invalidSchema elt)
    else if o.type == UclType.boolean ∧
        o.key == cstr ['u', 'n', 'i', 'q', 'u', 'e', 'I', 't', 'e', 'm', 's'] then
      ucl_schema_validate_array_loop rm h schema obj retU fuel rest
        allowAdd addSchema (ucl_object_toboolean o) firstUnval err
    else if o.key == cstr ['m', 'i', 'n', 'I', 't', 'e', 'm', 's'] ∧
        (ucl_object_toint_safe o).isSome then
      if ((hget h obj).len : Int) < (ucl_object_toint_safe o).getD 0 then
        some (false, allowAdd, addSchema, needUnique, firstUnval,
          ucl_schema_create_error err .constraint obj)
      else
        ucl_schema_validate_array_loop rm h schema obj retU fuel rest
          allowAdd addSchema needUnique firstUnval err
    else if o.key == cstr ['m', 'a', 'x', 'I', 't', 'e', 'm', 's'] ∧
        (ucl_object_toint_safe o).isSome then
      if (ucl_object_toint_safe o).getD 0 < ((hget h obj).len : Int) then
        some (false, allowAdd, addSchema, needUnique, firstUnval,
          ucl_schema_create_error err .constraint obj)
      else
        ucl_schema_validate_array_loop rm h schema obj retU fuel rest
          allowAdd addSchema needUnique firstUnval err
    else
      ucl_schema_validate_array_loop rm h schema obj retU fuel rest
        allowAdd addSchema needUnique firstUnval err
termination_by structural f l a b c d e => f

/-- `ucl_schema_validate_array` (lines 448-562): the schema-entry scan,
the additional-items handling and the uniqueness check. -/
def ucl_schema_validate_array (rm : List Byte → List Byte → Bool)
    (h : List ObjData) (schema obj : Nat) (retU : Bool) :
    Nat → SErr → Option (Bool × SErr)
  | 0, _ => none
  | fuel + 1, err =>
    match ucl_schema_validate_array_loop rm h schema obj retU fuel
      (ucl_iterate_object h schema true) true none false [] err with
    | none => none
    | some (false, _, _, _, _, e2) => some (false, e2)
    | some (true, allowAdd, addSchema, needUnique, firstUnval, e2) =>
      let step1 :=
        if (¬ allowAdd ∨ addSchema ≠ none) ∧ firstUnval ≠ [] then
          if ¬ allowAdd then
            some (false, ucl_schema_create_error e2 .constraint obj)
          else
            match addSchema with
            | some a =>
              ucl_schema_validate_list_loop rm h a false retU fuel firstUnval e2
            | none => some (true, e2)
        else some (true, e2)
      match step1 with
      | none => none
      | some (false, e3) => some (false, e3)
      | some (true, e3) =>
        if needUnique then some (ucl_schema_array_is_unique h obj e3)
        else some (true, e3)
termination_by structural f e => f

/-- The `allOf` loop of `ucl_schema_validate` (lines 665-674).  Returns
(aborted, ret, err): a failing sub-schema aborts the whole validation at
once; otherwise `ret` holds the last result (the incoming one for an
empty list). -/
def ucl_schema_allOf_loop (rm : List Byte → List Byte → Bool)
    (h : List ObjData) (obj : Nat) (retU : Bool) :
    Nat → List Nat → Bool → SErr → Option (Bool × Bool × SErr)
  | 0, _, _, _ => none
  | _ + 1, [], ret, err => some (false, ret, err)
  | fuel + 1, cur :: rest, _, err =>
    match ucl_schema_validate rm h cur obj true retU fuel err with
    | none => none
    | some (r, e2) =>
      if ¬ r then some (true, r, e2)
      else ucl_schema_allOf_loop rm h obj retU fuel rest r e2
termination_by structural f l r e => f

/-- The `anyOf` loop of `ucl_schema_validate` (lines 679-687): validate
each listed sub-schema in turn, stopping at the first success; the final
`ret` is that success, the last failure, or the incoming value for an
empty list. -/
def ucl_schema_anyOf_loop (rm : List Byte → List Byte → Bool)
    (h : List ObjData) (obj : Nat) (retU : Bool) :
    Nat → List Nat → Bool → SErr → Option (Bool × SErr)
  | 0, _, _, _ => none
  | _ + 1, [], ret, err => some (ret, err)
  | fuel + 1, cur :: rest, _, err =>
    match ucl_schema_validate rm h cur obj true retU fuel err with
    | none => none
    | some (r, e2) =>
      if r then some (true, e2)
      else ucl_schema_anyOf_loop rm h obj retU fuel rest r e2
termination_by structural f l r e => f

/-- The `oneOf` loop of `ucl_schema_validate` (lines 697-711): note that
the scan starts from the `ret` value left over by the earlier blocks
(or the uninitialized local). -/
def ucl_schema_oneOf_loop (rm : List Byte → List Byte → Bool)
    (h : List ObjData) (obj : Nat) (retU : Bool) :
    Nat → List Nat → Bool → SErr → Option (Bool × SErr)
  | 0, _, _, _ => none
  | _ + 1, [], ret, err => some (ret, err)
  | fuel + 1, cur :: rest, ret, err =>
    if ¬ ret then
      match ucl_schema_validate rm h cur obj true retU fuel err with
      | none => none
      | some (r, e2) => ucl_schema_oneOf_loop rm h obj retU fuel rest r e2
    else
      match ucl_schema_validate rm h cur obj true retU fuel err with
      | none => none
      | some (r2, e2) =>
        if r2 then some (false, e2)
        else ucl_schema_oneOf_loop rm h obj retU fuel rest ret e2
termination_by structural f l r e => f

/-- `ucl_schema_validate` (`ucl_schema.c` lines 646-757): the local
`ret` is declared without an initializer; `retU` models its initial
(indeterminate) contents.  On `anyOf` success and on `not` failure the
error CODE is reset to OK (the rest of the record stays).  The
`try_array` parameter is unused in the source and kept for shape. -/
def ucl_schema_validate (rm : List Byte → List Byte → Bool)
    (h : List ObjData) (schema obj : Nat) (_tryArray retU : Bool) :
    Nat → SErr → Option (Bool × SErr)
  | 0, _ => none
  | fuel + 1, err =>
    if (hget h schema).type ≠ UclType.object then
      some (false, ucl_schema_create_error err .invalidSchema schema)
    else
      let enumStep :=
        match ucl_object_find_key h schema (cstr ['e', 'n', 'u', 'm']) with
        | some en =>
          if (hget h en).type == UclType.array then
            ucl_schema_validate_enum h en obj err
          else (true, err)
        | none => (true, err)
      if ¬ enumStep.1 then some (false, enumStep.2)
      else
        let e1 := enumStep.2
        let allStep :=
          match ucl_object_find_key h schema (cstr ['a', 'l', 'l', 'O', 'f']) with
          | some a =>
            if (hget h a).type == UclType.array then
              ucl_schema_allOf_loop rm h obj retU fuel
                (ucl_iterate_object h a true) retU e1
            else some (false, retU, e1)
          | none => some (false, retU, e1)
        match allStep with
        | none => none
        | some (abort1, ret1, e2) =>
          if abort1 then some (false, e2)
          else
            let anyStep :=
              match ucl_object_find_key h schema (cstr ['a', 'n', 'y', 'O', 'f']) with
              | some a =>
                if (hget h a).type == UclType.array then
                  (ucl_schema_anyOf_loop rm h obj retU fuel
                    (ucl_iterate_object h a true) ret1 e2).map
                    (fun r => (true, r))
                else some (false, (ret1, e2))
              | none => some (false, (ret1, e2))
            match anyStep with
            | none => none
            | some (hadAny, (ret2, e3)) =>
              if hadAny ∧ ¬ ret2 then some (false, e3)
              else
                let e4 := if hadAny then { e3 with code := UclSchemaErrCode.ok } else e3
                let oneStep :=
                  match ucl_object_find_key h schema (cstr ['o', 'n', 'e', 'O', 'f']) with
                  | some a =>
                    if (hget h a).type == UclType.array then
                      (ucl_schema_oneOf_loop rm h obj retU fuel
                        (ucl_iterate_object h a true) ret2 e4).map
                        (fun r => (true, r))
                    else some (false, (ret2, e4))
                  | none => some (false, (ret2, e4))
                match oneStep with
                | none => none
                | some (hadOne, (ret3, e5)) =>
                  if hadOne ∧ ¬ ret3 then some (false, e5)
                  else
                    let notStep :=
                      match ucl_object_find_key h schema (cstr ['n', 'o', 't']) with
                      | some n =>
                        if (hget h n).type == UclType.object then
                          (ucl_schema_validate rm h n obj true retU fuel e5).map
                            (fun r => (true, r))
                        else some (false, (false, e5))
                      | none => some (false, (false, e5))
                    match notStep with
                    | none => none
                    | some (hadNot, (rNot, e6)) =>
                      if hadNot ∧ rNot then some (false, e6)
                      else
                        let e7 :=
                          if hadNot then { e6 with code := UclSchemaErrCode.ok }
                          else e6
                        let tyStep := ucl_schema_type_is_allowed h (h.length + 1)
                          (ucl_object_find_key h schema (cstr ['t', 'y', 'p', 'e']))
                          obj e7
                        if ¬ tyStep.1 then some (false, tyStep.2)
                        else
                          let e8 := tyStep.2
                          match (hget h obj).type with
                          | .object =>
                            ucl_schema_validate_object rm h schema obj retU fuel e8
                          | .array =>
                            ucl_schema_validate_array rm h schema obj retU fuel e8
                          | .int => some (ucl_schema_validate_number h schema obj e8)
                          | .float => some (ucl_schema_validate_number h schema obj e8)
                          | .str => some (ucl_schema_validate_string h schema obj e8)
                          | _ => some (true, e8)
termination_by structural f e => f

end

/-- `ucl_object_validate` (`ucl_schema.c` lines 760-765). -/
def ucl_object_validate (rm : List Byte → List Byte → Bool)
    (h : List ObjData) (schema obj : Nat) (retU : Bool) (fuel : Nat)
    (err : SErr) : Option (Bool × SErr) :=
  ucl_schema_validate rm h schema obj true retU fuel err

/-- `ucl_include_file` / `ucl_include_handler` (`ucl_util.c` lines
506-575), with the filesystem as the association list `fs` (name ↦
bytes): resolve the macro argument as a file name, feed the body to
`ucl_parser_add_chunk` on the same parser, and pop the chunk on success.
Nothing here decrements `recursion`.  Fuel exhaustion (the C stack
overflowing) surfaces as a plain failure. -/
def ucl_include_file (fs : List (List Byte × List Byte)) :
    Nat → List Byte → UclParser → Option UclErrMsg →
    Bool × UclParser × Option UclErrMsg
  | 0, _, P, e => (false, P, e)
  | fuel + 1, name, P, e =>
    match fs.find? (fun p => p.1 == name) with
    | none => (false, P, ucl_set_err e .cannotOpenFile)
    | some pr =>
      match ucl_parser_add_chunk
        (fun a P2 e2 => ucl_include_file fs fuel a P2 e2) fuel P pr.2 e with
      | none => (false, P, e)
      | some (res, P2, e2) =>
        if res then (true, { P2 with chunks := P2.chunks.tail }, e2)
        else (false, P2, e2)

/-- Parsing a top-level document whose includes resolve in `fs`:
`ucl_parser_new` + `ucl_parser_add_chunk` with the include handler. -/
def ucl_parse_with_includes (fs : List (List Byte × List Byte))
    (fuel : Nat) (data : List Byte) :
    Option (Bool × UclParser × Option UclErrMsg) :=
  ucl_parser_add_chunk (fun a P e => ucl_include_file fs fuel a P e) fuel
    (ucl_parser_new 0) data none

/-- The document `.include "<name>";` (a single include directive). -/
def incDirective (name : List Byte) : List Byte :=
  cstr ['.', 'i', 'n', 'c', 'l', 'u', 'd', 'e', ' ', '"'] ++ name ++
    cstr ['"', ';']

/-- A linear chain of include files: file `i` (named by the byte
`65 + i`) includes file `i + 1`; the last file is empty.  `chainFs d`
resolves names `65`‥`65 + d`. -/
def chainFs (d : Nat) : List (List Byte × List Byte) :=
  (List.range (d + 1)).map (fun i =>
    ([65 + i], if i == d then [] else incDirective [65 + i + 1]))

/-- A flat document performing `n` sibling includes of one empty file
(named "A", nesting depth 2). -/
def wideDoc (n : Nat) : List Byte :=
  (List.range n).foldl (fun acc _ => acc ++ incDirective [65]) []

/-! Concrete inputs and auxiliary values used by the verification
theorems below. -/

/-- A macro handler that accepts every invocation and changes nothing. -/
def noMacroHandler : UclMacroHandler := fun _ P e => (true, P, e)

/-- A macro handler that fails every invocation (an include whose fetch
fails, for instance). -/
def failMacroHandler : UclMacroHandler := fun _ P e => (false, P, e)

/-- A double printer that writes nothing (no theorem below emits a
float). -/
def zeroDoublePrinter : ℚ → List Byte := fun _ => []

/-- A regex matcher that matches nothing (no schema below uses
patterns). -/
def rmFalse : List Byte → List Byte → Bool := fun _ _ => false

/-- The document `k = 1; k = 2; k = 3;`. -/
def c2doc : List Byte :=
  cstr ['k', ' ', '=', ' ', '1', ';', ' ', 'k', ' ', '=', ' ', '2', ';',
        ' ', 'k', ' ', '=', ' ', '3', ';']

/-- The parser after `c2doc`. -/
def c2P : UclParser :=
  ((ucl_parser_add_chunk noMacroHandler 100 (ucl_parser_new 0) c2doc
    none).map (fun r => r.2.1)).getD (ucl_parser_new 0)

/-- The document `k = 10gx;`. -/
def c1strDoc : List Byte :=
  cstr ['k', ' ', '=', ' ', '1', '0', 'g', 'x', ';']

/-- The parser after `c1strDoc`. -/
def c1strP : UclParser :=
  ((ucl_parser_add_chunk noMacroHandler 100 (ucl_parser_new 0) c1strDoc
    none).map (fun r => r.2.1)).getD (ucl_parser_new 0)

/-- The document `.include "x";`. -/
def c3doc : List Byte := incDirective (cstr ['x'])

/-- A parser standing in the ERROR state. -/
def c3errP : UclParser := { state := UclPState.error }

/-- The one-file filesystem `A ↦ empty file`. -/
def c4fsA : List (List Byte × List Byte) := [(cstr ['A'], [])]

/-- The hash after inserting data 10 under hash 1 and data 20 under
hash 2. -/
def c7hash2 : UclHash :=
  ucl_hash_insert (ucl_hash_insert ucl_hash_create 10 1) 20 2

/-- `c7hash2` after removing the entry with data 10. -/
def c7removed : Option Nat × UclHash :=
  ucl_hash_remove c7hash2 (fun d => d == 10) 1

/-- The schema `{anyOf : [{type : "integer"}, {type : "string"}]}` (ids
0-5) with the candidate value as id 6. -/
def c5anyHeap (cand : ObjData) : List ObjData :=
  [ { objZero with entries := [1] },
    { objZero with
      key := cstr ['a', 'n', 'y', 'O', 'f'], type := UclType.array,
      aelts := [2, 4] },
    { objZero with entries := [3] },
    { objZero with
      key := cstr ['t', 'y', 'p', 'e'], type := UclType.str,
      sv := cstr ['i', 'n', 't', 'e', 'g', 'e', 'r'] },
    { objZero with entries := [5] },
    { objZero with
      key := cstr ['t', 'y', 'p', 'e'], type := UclType.str,
      sv := cstr ['s', 't', 'r', 'i', 'n', 'g'] },
    cand ]

/-- The schema `{not : {type : "integer"}}` (ids 0-2) with the candidate
value as id 3. -/
def c5notHeap (cand : ObjData) : List ObjData :=
  [ { objZero with entries := [1] },
    { objZero with key := cstr ['n', 'o', 't'], entries := [2] },
    { objZero with
      key := cstr ['t', 'y', 'p', 'e'], type := UclType.str,
      sv := cstr ['i', 'n', 't', 'e', 'g', 'e', 'r'] },
    cand ]

/-- The schema `{maximum : 10, exclusiveMaximum : true, minimum : 5}`
in that entry order (ids 0-3), with an integer candidate as id 4. -/
def c6heap (v : Int) : List ObjData :=
  [ { objZero with entries := [1, 2, 3] },
    { objZero with
      key := cstr ['m', 'a', 'x', 'i', 'm', 'u', 'm'], type := UclType.int,
      iv := 10 },
    { objZero with
      key := cstr ['e', 'x', 'c', 'l', 'u', 's', 'i', 'v', 'e', 'M', 'a',
                   'x', 'i', 'm', 'u', 'm'],
      type := UclType.boolean, iv := 1 },
    { objZero with
      key := cstr ['m', 'i', 'n', 'i', 'm', 'u', 'm'], type := UclType.int,
      iv := 5 },
    { objZero with type := UclType.int, iv := v } ]

/-- The same schema with `minimum` iterated first (entry order
minimum, maximum, exclusiveMaximum). -/
def c6heapMinFirst (v : Int) : List ObjData :=
  [ { objZero with entries := [3, 1, 2] },
    { objZero with
      key := cstr ['m', 'a', 'x', 'i', 'm', 'u', 'm'], type := UclType.int,
      iv := 10 },
    { objZero with
      key := cstr ['e', 'x', 'c', 'l', 'u', 's', 'i', 'v', 'e', 'M', 'a',
                   'x', 'i', 'm', 'u', 'm'],
      type := UclType.boolean, iv := 1 },
    { objZero with
      key := cstr ['m', 'i', 'n', 'i', 'm', 'u', 'm'], type := UclType.int,
      iv := 5 },
    { objZero with type := UclType.int, iv := v } ]

/-- A parser with a parsed top object, for exercising
`ucl_parser_get_object` off the INIT/ERROR states. -/
def c10P : UclParser :=
  { state := UclPState.key, top_obj := some 0, heap := [objZero] }

/-- Everything of an object except its reference count. -/
def objShape (o : ObjData) :
    UclType × List Byte × Nat × Int × ℚ × List Byte × Nat × Nat ×
      List Nat × List Nat × List Nat :=
  (o.type, o.key, o.keylen, o.iv, o.dv, o.sv, o.len, o.flags,
    o.entries, o.sibs, o.aelts)

/-! ## Theorems -/

/-- Bumping one object's reference count leaves every object's shape
(everything but `ref`) unchanged. -/
theorem objShape_hupd_ref (h : List ObjData) (t i : Nat) :
    objShape (hget (hupd h t (fun o => { o with ref := o.ref + 1 })) i)
      = objShape (hget h i) := by
  unfold hget hupd
  rcases eq_or_ne t i with rfl | hne
  · by_cases hlt : t < h.length
    · rw [List.getD_eq_getElem?_getD, List.getElem?_set_self (by simpa using hlt)]
      rw [List.getD_eq_getElem?_getD]
      have : h[t]? = some h[t] := List.getElem?_eq_getElem (by simpa using hlt)
      simp [this, objShape, hget]
    · rw [List.getD_eq_getElem?_getD, List.getElem?_set]
      simp [hlt]
      have : h[t]? = none := List.getElem?_eq_none (by omega)
      simp [this]
  · rw [List.getD_eq_getElem?_getD, List.getElem?_set_ne hne,
      List.getD_eq_getElem?_getD]

/-- C10: `ucl_parser_get_object` returns NULL exactly in the INIT and
ERROR states; in every other state it returns the top object; and the
call changes neither the parser's state fields nor any object's shape
(only the returned object's reference count moves). -/
theorem C10_get_object (P : UclParser) (t : Nat) (h : P.top_obj = some t) :
    ((ucl_parser_get_object P).1 = none ↔
      (P.state = UclPState.init ∨ P.state = UclPState.error))
    ∧ (P.state ≠ UclPState.init → P.state ≠ UclPState.error →
        (ucl_parser_get_object P).1 = P.top_obj)
    ∧ (ucl_parser_get_object P).2.state = P.state
    ∧ (ucl_parser_get_object P).2.top_obj = P.top_obj
    ∧ (ucl_parser_get_object P).2.stack = P.stack
    ∧ (ucl_parser_get_object P).2.cur_obj = P.cur_obj
    ∧ ∀ i, objShape (hget (ucl_parser_get_object P).2.heap i)
        = objShape (hget P.heap i) := by
  unfold ucl_parser_get_object
  by_cases h1 : P.state = UclPState.init
  · simp [h1]
  · by_cases h2 : P.state = UclPState.error
    · simp [h1, h2]
    · simp [h1, h2, h, ucl_object_ref]
      exact objShape_hupd_ref P.heap t

/-- C10 witness: a concrete non-initial parser. -/
theorem C10_get_object_witness :
    (ucl_parser_get_object c10P).1 = c10P.top_obj :=
  (C10_get_object c10P 0 rfl).2.1 (by decide) (by decide)

/-- The shrink merge loop never touches the iteration list or the node
arena. -/
theorem ucl_hash_shrink_loop_nodes (n : Nat) (hl : UclHash) :
    (ucl_hash_shrink_loop n hl).nodes = hl.nodes
    ∧ (ucl_hash_shrink_loop n hl).arena = hl.arena := by
  induction n generalizing hl with
  | zero => exact ⟨rfl, rfl⟩
  | succ n ih =>
    rw [ucl_hash_shrink_loop]
    dsimp only
    split
    · split
      · exact ⟨rfl, rfl⟩
      · exact ih _
    · exact ⟨rfl, rfl⟩

/-- A shrink step never touches the iteration list or the node arena. -/
theorem ucl_hash_shrink_step_nodes (hl : UclHash) :
    (ucl_hash_shrink_step hl).nodes = hl.nodes
    ∧ (ucl_hash_shrink_step hl).arena = hl.arena := by
  have main : ∀ hl1 : UclHash, hl1.nodes = hl.nodes → hl1.arena = hl.arena →
      ((if (hl1.state == 2) = true then ucl_hash_shrink_loop (hl1.split + 1) hl1
        else hl1).nodes = hl.nodes
       ∧ (if (hl1.state == 2) = true then ucl_hash_shrink_loop (hl1.split + 1) hl1
          else hl1).arena = hl.arena) := by
    intro hl1 h1 h2
    split
    · exact ⟨(ucl_hash_shrink_loop_nodes _ _).1.trans h1,
        (ucl_hash_shrink_loop_nodes _ _).2.trans h2⟩
    · exact ⟨h1, h2⟩
  unfold ucl_hash_shrink_step
  dsimp only
  apply main <;>
  · split
    · split
      · dsimp only
        split <;> rfl
      · rfl
    · rfl

/-- C7: `ucl_hash_remove` deletes only from the hash bucket — the
`nodes_head` iteration list (and the arena) are left untouched, for
every table, predicate and hash — so a removed entry is still visited:
after inserting 10 and 20 and removing 10, the remove reports the entry
(count 1, lookup misses) yet iteration still yields [10, 20]; insert
itself appends to the iteration order, as the pre-removal iteration
[10, 20] shows. -/
theorem C7_remove_stale_iteration :
    (∀ (hl : UclHash) (pred : Nat → Bool) (hash : Nat),
      (ucl_hash_remove hl pred hash).2.nodes = hl.nodes
      ∧ (ucl_hash_remove hl pred hash).2.arena = hl.arena)
    ∧ ucl_hash_iterate_all c7hash2 = [10, 20]
    ∧ c7removed.1 = some 10
    ∧ c7removed.2.count = 1
    ∧ ucl_hash_search c7removed.2 (fun d => d == 10) 1 = none
    ∧ ucl_hash_iterate_all c7removed.2 = [10, 20] := by
  refine ⟨fun hl pred hash => ?_, by decide, by decide, by decide, by decide,
    by decide⟩
  unfold ucl_hash_remove
  dsimp only
  cases hfind : (bget hl.buckets (ucl_hash_bucket_ptr hl hash)).find? (fun nid =>
      (aget hl.arena nid).key == hash && pred (aget hl.arena nid).data) with
  | none => simp [hfind]
  | some nid =>
    simp only [hfind]
    exact ucl_hash_shrink_step_nodes _


/-- C3 counterexample: a macro handler failure makes `ucl_parser_add_chunk`
report failure, yet the parser is left in the KEY state with no error
recorded, and the next `ucl_parser_add_chunk` is accepted — the original
claim that every reported error leaves the parser rejecting all further
input is false. -/
theorem C3_counterexample :
    (ucl_parser_add_chunk failMacroHandler 60 (ucl_parser_new 0) c3doc
        none).map (fun r => (r.1, r.2.1.state, r.2.2))
      = some (false, UclPState.key, none)
    ∧ (ucl_parser_add_chunk failMacroHandler 60 (ucl_parser_new 0) c3doc
        none).map (fun r =>
          (ucl_parser_add_chunk failMacroHandler 60 r.2.1
            (cstr ['k', '=', '1', ';']) r.2.2).map (fun q => (q.1, q.2.2)))
      = some (some (true, none)) := by
  exact ⟨by decide, by decide⟩

/-- C3 (amended): an error that drives the parser into the ERROR state is
terminal — every subsequent `ucl_parser_add_chunk` is rejected with the
invalid-state error and the state stays ERROR.  A macro handler failure,
however, returns failure with the state untouched (see the
counterexample), so such a failure does not end the parse. -/
theorem C3_error_state_terminal (H : UclMacroHandler) (fuel : Nat)
    (P : UclParser) (data : List Byte) (e : Option UclErrMsg)
    (h : P.state = UclPState.error) :
    ucl_parser_add_chunk H fuel P data e
      = some (false, P, ucl_set_err e UclErrMsg.invalidParserState)
    ∧ (ucl_parser_add_chunk H fuel P data e).map (fun r => r.2.1.state)
      = some UclPState.error := by
  have h1 : ucl_parser_add_chunk H fuel P data e
      = some (false, P, ucl_set_err e UclErrMsg.invalidParserState) := by
    unfold ucl_parser_add_chunk
    simp [h]
  exact ⟨h1, by rw [h1]; simp [h]⟩

/-- C3 witness: the amended theorem applied to a concrete ERROR-state
parser. -/
theorem C3_error_state_terminal_witness :
    ucl_parser_add_chunk failMacroHandler 1 c3errP [] none
      = some (false, c3errP, some UclErrMsg.invalidParserState) :=
  (C3_error_state_terminal failMacroHandler 1 c3errP [] none rfl).1

/-- C4 counterexample: a document of nesting depth 2 that performs 16
sibling includes of one empty file fails with the nesting error, while
15 sibling includes pass — the quantity compared with the ceiling is the
cumulative `add_chunk` count, not the nesting depth. -/
theorem C4_counterexample :
    (ucl_parse_with_includes c4fsA 400 (wideDoc 16)).map
      (fun r => (r.1, r.2.2)) = some (false, some UclErrMsg.maxNestingReached)
    ∧ (ucl_parse_with_includes c4fsA 400 (wideDoc 15)).map
      (fun r => (r.1, r.2.2)) = some (true, none) := by
  exact ⟨by decide, by decide⟩

/-- C4 (amended): `recursion` counts every `ucl_parser_add_chunk` call
cumulatively (it is never decremented), and once it has reached
`UCL_MAX_RECURSION` the next call fails with the nesting error before
parsing anything; an include chain of depth 17 therefore fails with the
nesting error (no unbounded recursion), while a depth-3 chain passes. -/
theorem C4_recursion_counter (H : UclMacroHandler) (fuel : Nat)
    (P : UclParser) (data : List Byte) (e : Option UclErrMsg)
    (hs : P.state ≠ UclPState.error) (hr : UCL_MAX_RECURSION ≤ P.recursion) :
    ucl_parser_add_chunk H fuel P data e
      = some (false,
          { P with
            chunks := { rest := data, line := 1, column := 0,
                        remain := data.length } :: P.chunks,
            recursion := P.recursion + 1 },
          ucl_set_err e UclErrMsg.maxNestingReached)
    ∧ (ucl_parse_with_includes (chainFs 16) 400 (incDirective [65])).map
        (fun r => (r.1, r.2.2))
      = some (false, some UclErrMsg.maxNestingReached)
    ∧ (ucl_parse_with_includes (chainFs 2) 400 (incDirective [65])).map
        (fun r => (r.1, r.2.2)) = some (true, none) := by
  refine ⟨?_, by decide, by decide⟩
  have h2 : UCL_MAX_RECURSION < P.recursion + 1 := by
    unfold UCL_MAX_RECURSION at hr ⊢
    omega
  unfold ucl_parser_add_chunk
  simp [hs, h2]

/-- C4 witness: the amended theorem applied to a parser whose counter
already stands at the ceiling. -/
theorem C4_recursion_counter_witness :
    ucl_parser_add_chunk noMacroHandler 5
      ({ state := UclPState.init, recursion := 16 } : UclParser) [] none
      = some (false,
          { ({ state := UclPState.init, recursion := 16 } : UclParser) with
            chunks := [{ rest := [], line := 1, column := 0, remain := 0 }],
            recursion := 17 },
          some UclErrMsg.maxNestingReached) :=
  (C4_recursion_counter noMacroHandler 5 _ [] none (by decide) (by decide)).1

/-- C2: parsing `k = 1; k = 2; k = 3;` chains the three int values as
same-key siblings on the first entry in arrival order with no array
created, and find-key + expanded iteration yields [1, 2, 3]; the
compact-JSON emission flattens the chain into an array — but prints the
key as `null` and the config emission prints an empty key, because
`ucl_parse_key` never stores `keylen` (the emitter's key source):
the spec's `"k":[1,2,3]` is not produced. -/
theorem C2_sibling_chain :
    (ucl_parser_add_chunk noMacroHandler 100 (ucl_parser_new 0) c2doc
        none).map (fun r => (r.1, r.2.2)) = some (true, none)
    ∧ (hget c2P.heap 0).entries = [1]
    ∧ (hget c2P.heap 1).key = cstr ['k']
    ∧ (hget c2P.heap 1).type = UclType.int
    ∧ (hget c2P.heap 1).iv = 1
    ∧ (hget c2P.heap 1).sibs = [2, 3]
    ∧ (hget c2P.heap 2).iv = 2
    ∧ (hget c2P.heap 3).iv = 3
    ∧ c2P.heap.all (fun o => o.type != UclType.array) = true
    ∧ ucl_object_find_key c2P.heap 0 (cstr ['k']) = some 1
    ∧ (ucl_iterate_object c2P.heap 1 true).map (fun i => (hget c2P.heap i).iv)
      = [1, 2, 3]
    ∧ ucl_object_emit zeroDoublePrinter c2P.heap 0 UclEmitType.jsonCompact 100
      = cstr ['{', 'n', 'u', 'l', 'l', ':', '[', '1', ',', '2', ',', '3', ']', '}']
    ∧ ucl_object_emit zeroDoublePrinter c2P.heap 0 UclEmitType.config 100
      = cstr [' ', '=', ' ', '1', ';', '\n', ' ', '=', ' ', '2', ';', '\n',
              ' ', '=', ' ', '3', ';', '\n']
    ∧ ucl_object_emit zeroDoublePrinter c2P.heap 0 UclEmitType.jsonCompact 100
      ≠ cstr ['{', '"', 'k', '"', ':', '[', '1', ',', '2', ',', '3', ']', '}'] := by
  have h : c2P.heap =
      [ { objZero with entries := [1] },
        { objZero with type := UclType.int, key := [107], iv := 1,
                       sibs := [2, 3] },
        { objZero with type := UclType.int, key := [107], iv := 2 },
        { objZero with type := UclType.int, key := [107], iv := 3 } ] := by
    decide
  refine ⟨by decide, ?_, ?_, ?_, ?_, ?_, ?_, ?_, ?_, ?_, ?_, ?_, ?_, ?_⟩ <;>
    rw [h] <;> decide

/-- C6 (amended): in `ucl_schema_validate_number` the `exclusive` flag
is one local shared by both bound branches and is never reset, so a
bound processed after an exclusive one inherits exclusivity: with the
schema `{maximum : 10, exclusiveMaximum : true, minimum : 5}` (in that
scan order) an integer candidate v passes iff `v < 10 ∧ 5 < v` — the
minimum has become strict — while with `minimum` scanned first it passes
iff `5 ≤ v ∧ v < 10`, each flag then governing only its own bound. -/
theorem C6_exclusive_flag_leak (v : Int) :
    ((ucl_schema_validate_number (c6heap v) 0 4 {}).1
      = (decide ((v : ℚ) < 10) && decide ((5 : ℚ) < (v : ℚ))))
    ∧ ((ucl_schema_validate_number (c6heapMinFirst v) 0 4 {}).1
      = (decide ((5 : ℚ) ≤ (v : ℚ)) && decide ((v : ℚ) < 10))) := by
  constructor
  · rcases le_or_lt (10 : ℚ) (v : ℚ) with h1 | h1
    · have a2 : decide ((10 : ℚ) ≤ (v : ℚ)) = true := decide_eq_true h1
      have a3 : decide ((v : ℚ) < 10) = false := decide_eq_false (not_lt.2 h1)
      simp [ucl_schema_validate_number, ucl_schema_validate_number_loop,
        ucl_iterate_object, c6heap, hget, objZero, ucl_object_todouble,
        ucl_object_find_key, ucl_object_toboolean, ucl_schema_create_error,
        cstr, a2, a3]
    · have a2 : decide ((10 : ℚ) ≤ (v : ℚ)) = false :=
        decide_eq_false (not_le.2 h1)
      have a1 : decide ((10 : ℚ) < (v : ℚ)) = false :=
        decide_eq_false (not_lt.2 (le_of_lt h1))
      have a3 : decide ((v : ℚ) < 10) = true := decide_eq_true h1
      rcases le_or_lt ((v : ℚ)) 5 with h2 | h2
      · have b1 : decide ((v : ℚ) ≤ 5) = true := decide_eq_true h2
        have b2 : decide ((5 : ℚ) < (v : ℚ)) = false :=
          decide_eq_false (not_lt.2 h2)
        simp [ucl_schema_validate_number, ucl_schema_validate_number_loop,
          ucl_iterate_object, c6heap, hget, objZero, ucl_object_todouble,
          ucl_object_find_key, ucl_object_toboolean, ucl_schema_create_error,
          cstr, a1, a2, a3, b1, b2]
      · have b1 : decide ((v : ℚ) ≤ 5) = false := decide_eq_false (not_le.2 h2)
        have b2 : decide ((v : ℚ) < 5) = false :=
          decide_eq_false (not_lt.2 (le_of_lt h2))
        have b3 : decide ((5 : ℚ) < (v : ℚ)) = true := decide_eq_true h2
        simp [ucl_schema_validate_number, ucl_schema_validate_number_loop,
          ucl_iterate_object, c6heap, hget, objZero, ucl_object_todouble,
          ucl_object_find_key, ucl_object_toboolean, ucl_schema_create_error,
          cstr, a1, a2, a3, b1, b2, b3]
  · rcases le_or_lt (5 : ℚ) (v : ℚ) with h1 | h1
    · have a1 : decide ((v : ℚ) < 5) = false := decide_eq_false (not_lt.2 h1)
      have a3 : decide ((5 : ℚ) ≤ (v : ℚ)) = true := decide_eq_true h1
      rcases le_or_lt (10 : ℚ) (v : ℚ) with h2 | h2
      · have b1 : decide ((10 : ℚ) ≤ (v : ℚ)) = true := decide_eq_true h2
        have b2 : decide ((v : ℚ) < 10) = false := decide_eq_false (not_lt.2 h2)
        have c1 : decide ((v : ℚ) ≤ 5) = false :=
          decide_eq_false (not_le.2 (lt_of_lt_of_le (by norm_num) h2))
        simp [ucl_schema_validate_number, ucl_schema_validate_number_loop,
          ucl_iterate_object, c6heapMinFirst, hget, objZero,
          ucl_object_todouble, ucl_object_find_key, ucl_object_toboolean,
          ucl_schema_create_error, cstr, a1, a3, b1, b2, c1]
      · have b1 : decide ((10 : ℚ) ≤ (v : ℚ)) = false :=
          decide_eq_false (not_le.2 h2)
        have b2 : decide ((10 : ℚ) < (v : ℚ)) = false :=
          decide_eq_false (not_lt.2 (le_of_lt h2))
        have b3 : decide ((v : ℚ) < 10) = true := decide_eq_true h2
        rcases le_or_lt ((v : ℚ)) 5 with h3 | h3
        · have d1 : decide ((v : ℚ) ≤ 5) = true := decide_eq_true h3
          simp [ucl_schema_validate_number, ucl_schema_validate_number_loop,
            ucl_iterate_object, c6heapMinFirst, hget, objZero,
            ucl_object_todouble, ucl_object_find_key, ucl_object_toboolean,
            ucl_schema_create_error, cstr, a1, a3, b1, b2, b3, d1]
        · have d1 : decide ((v : ℚ) ≤ 5) = false :=
            decide_eq_false (not_le.2 h3)
          simp [ucl_schema_validate_number, ucl_schema_validate_number_loop,
            ucl_iterate_object, c6heapMinFirst, hget, objZero,
            ucl_object_todouble, ucl_object_find_key, ucl_object_toboolean,
            ucl_schema_create_error, cstr, a1, a3, b1, b2, b3, d1]
    · have a1 : decide ((v : ℚ) < 5) = true := decide_eq_true h1
      have a3 : decide ((5 : ℚ) ≤ (v : ℚ)) = false :=
        decide_eq_false (not_le.2 h1)
      simp [ucl_schema_validate_number, ucl_schema_validate_number_loop,
        ucl_iterate_object, c6heapMinFirst, hget, objZero, ucl_object_todouble,
        ucl_object_find_key, ucl_object_toboolean, ucl_schema_create_error,
        cstr, a1, a3]

/-- C6 counterexample: the candidate 5 equals the inclusive minimum 5
(no `exclusiveMinimum` in the schema), yet the validator rejects it with
a constraint error — because `exclusiveMaximum : true` leaked into the
minimum comparison; with `minimum` scanned before `maximum` the same
candidate passes. -/
theorem C6_counterexample :
    (ucl_schema_validate_number (c6heap 5) 0 4 {}).1 = false
    ∧ (ucl_schema_validate_number (c6heap 5) 0 4 {}).2.code
      = UclSchemaErrCode.constraint
    ∧ (ucl_schema_validate rmFalse (c6heap 5) 0 4 true false 50 {}).map
        Prod.fst = some false
    ∧ (ucl_schema_validate_number (c6heapMinFirst 5) 0 4 {}).1 = true := by
  refine ⟨by decide, by decide, by decide, by decide⟩

/-- C5: for every candidate value, the schema
`{anyOf : [{type : "integer"}, {type : "string"}]}` validates exactly the
int and string candidates (in particular it accepts 42 and "x" and
rejects true), with the error code reset to OK on every success; and
`{not : {type : "integer"}}` validates exactly the non-int candidates
(in particular it rejects 42), also with the code reset to OK on
success. -/
theorem C5_anyOf_not (o : ObjData) :
    ((ucl_schema_validate rmFalse (c5anyHeap o) 0 6 true false 50 {}).map
        Prod.fst = some (o.type == UclType.int || o.type == UclType.str))
    ∧ ((o.type == UclType.int || o.type == UclType.str) = true →
        (ucl_schema_validate rmFalse (c5anyHeap o) 0 6 true false 50 {}).map
          (fun r => r.2.code) = some UclSchemaErrCode.ok)
    ∧ ((ucl_schema_validate rmFalse (c5notHeap o) 0 3 true false 50 {}).map
        Prod.fst = some (!(o.type == UclType.int)))
    ∧ ((o.type == UclType.int) = false →
        (ucl_schema_validate rmFalse (c5notHeap o) 0 3 true false 50 {}).map
          (fun r => r.2.code) = some UclSchemaErrCode.ok) := by
  rcases o with ⟨t, k, kl, iv, dv, sv, len, fl, en, si, ae, rf⟩
  cases t <;> refine ⟨rfl, fun h => ?_, rfl, fun h => ?_⟩ <;>
    first
      | rfl
      | exact Bool.noConfusion h

/-- Scanning a quoted-string body across bytes that are neither control
bytes (below 0x1F), quotes nor backslashes just advances the cursor. -/
theorem json_string_go_plain_prefix (pre : List Byte)
    (hpre : ∀ x ∈ pre, 31 ≤ x ∧ x ≠ 34 ∧ x ≠ 92) :
    ∀ (fuel : Nat) (c : UclChunk) (nu : Bool) (e : Option UclErrMsg)
      (r : List Byte), c.rest = pre ++ r → c.rest.length < fuel →
      ∃ c2 : UclChunk, c2.rest = r
        ∧ ucl_lex_json_string_go fuel c nu e
          = ucl_lex_json_string_go (fuel - pre.length) c2 nu e := by
  induction pre with
  | nil => exact fun fuel c nu e r hr _ => ⟨c, by simpa using hr, by simp⟩
  | cons x pre ih =>
    intro fuel c nu e r hr hf
    obtain ⟨hx1, hx2, hx3⟩ := hpre x (List.mem_cons_self x pre)
    obtain ⟨cr, ln, col, rem⟩ := c
    simp only at hr
    subst hr
    simp only [List.cons_append, List.length_cons] at hf ⊢
    have hx1n : (31 : Nat) ≤ x := hx1
    have h31 : ¬ (x < 31) := not_lt.2 hx1
    have h34 : (x == 34) = false := by simp [hx2]
    have h92 : (x == 92) = false := by simp [hx3]
    have h10 : (x == 10) = false := by
      simp [(Nat.lt_of_lt_of_le (by norm_num : (10 : Nat) < 31) hx1n).ne']
    cases fuel with
    | zero => omega
    | succ fuel =>
      have hstep : ucl_lex_json_string_go (fuel + 1)
            ⟨x :: (pre ++ r), ln, col, rem⟩ nu e
          = ucl_lex_json_string_go fuel
            ⟨pre ++ r, ln, col + 1, rem - 1⟩ nu e := by
        rw [ucl_lex_json_string_go]
        simp [h31, h92, h34, ucl_chunk_skipc, h10]
      have hlen : (pre ++ r).length < fuel := by
        simp only [List.length_append] at hf ⊢
        omega
      obtain ⟨c2, hc2, heq⟩ :=
        ih (fun y hy => hpre y (List.mem_cons_of_mem x hy)) fuel
          ⟨pre ++ r, ln, col + 1, rem - 1⟩ nu e r rfl hlen
      refine ⟨c2, hc2, ?_⟩
      rw [hstep, heq]
      congr 1
      omega

/-- C8 (amended): inside a quoted literal, every unescaped byte BELOW
0x1F stops the lexer with an error — a newline with the
unexpected-newline message, any other such byte with the
control-character message — after any run of plain content bytes; the
byte 0x1F itself (which is below 0x20) is NOT rejected: a literal ending
`0x1F "` lexes successfully.  The source comparison is `c < 0x1F`, not
`c < 0x20`. -/
theorem C8_control_bytes (pre tl : List Byte) (ln col rem : Nat) (nu : Bool)
    (e : Option UclErrMsg) (b : Byte)
    (hpre : ∀ x ∈ pre, 31 ≤ x ∧ x ≠ 34 ∧ x ≠ 92) (hb : b < 31) :
    ((ucl_lex_json_string ⟨pre ++ b :: tl, ln, col, rem⟩ nu e).1 = false
      ∧ (ucl_lex_json_string ⟨pre ++ b :: tl, ln, col, rem⟩ nu e).2.2.2
        = ucl_set_err e (if b == 10 then UclErrMsg.unexpectedNewline
                         else UclErrMsg.unexpectedControlChar))
    ∧ (ucl_lex_json_string ⟨pre ++ [31, 34], ln, col, rem⟩ nu e).1 = true := by
  constructor
  · unfold ucl_lex_json_string
    obtain ⟨c2, hc2, heq⟩ := json_string_go_plain_prefix pre hpre
      ((⟨pre ++ b :: tl, ln, col, rem⟩ : UclChunk).rest.length + 1)
      ⟨pre ++ b :: tl, ln, col, rem⟩ nu e (b :: tl) rfl (by simp)
    rw [heq]
    obtain ⟨cr, ln2, col2, rem2⟩ := c2
    simp only at hc2
    subst hc2
    have hfl : (⟨pre ++ b :: tl, ln, col, rem⟩ : UclChunk).rest.length + 1
        - pre.length = tl.length + 2 := by
      simp
      omega
    rw [hfl]
    rw [ucl_lex_json_string_go]
    simp only [hb, if_pos]
    by_cases h10 : b = 10
    · subst h10
      simp
    · have : (b == 10) = false := by simp [h10]
      simp [this]
  · unfold ucl_lex_json_string
    obtain ⟨c2, hc2, heq⟩ := json_string_go_plain_prefix pre hpre
      ((⟨pre ++ [31, 34], ln, col, rem⟩ : UclChunk).rest.length + 1)
      ⟨pre ++ [31, 34], ln, col, rem⟩ nu e [31, 34] rfl (by simp)
    rw [heq]
    obtain ⟨cr, ln2, col2, rem2⟩ := c2
    simp only at hc2
    subst hc2
    have hfl : (⟨pre ++ [31, 34], ln, col, rem⟩ : UclChunk).rest.length + 1
        - pre.length = 3 := by
      simp
      omega
    rw [hfl]
    rw [ucl_lex_json_string_go]
    norm_num [ucl_chunk_skipc]
    rw [ucl_lex_json_string_go]
    norm_num

/-- C8 witness: the amended theorem at the concrete literal body
`a <0x01> b`. -/
theorem C8_control_bytes_witness :
    (ucl_lex_json_string ⟨[97, 1, 98], 1, 0, 3⟩ false none).1 = false
    ∧ (ucl_lex_json_string ⟨[97, 1, 98], 1, 0, 3⟩ false none).2.2.2
      = some UclErrMsg.unexpectedControlChar :=
  ⟨(C8_control_bytes [97] [98] 1 0 3 false none 1 (by decide) (by decide)).1.1,
   (C8_control_bytes [97] [98] 1 0 3 false none 1 (by decide) (by decide)).1.2⟩

/-- C8 counterexample: 0x1F is below 0x20, yet the literal body
`<0x1F> "` is accepted — refuting the claim that every byte below 0x20
inside the literal causes a syntax error. -/
theorem C8_counterexample :
    (31 : Byte) < 32
    ∧ ucl_lex_json_string ⟨[31, 34], 1, 0, 2⟩ false none
      = (true, false, ⟨[], 1, 2, 0⟩, none) := by
  exact ⟨by decide, by decide⟩

/-- Digit runs: `takeWhile c_isdigit` over digits followed by a non-digit
takes exactly the digits. -/
theorem takeWhile_digits (z : Byte) (tl : List Byte)
    (hz : c_isdigit z = false) :
    ∀ ds : List Byte, (∀ b ∈ ds, 48 ≤ b ∧ b ≤ 57) →
      (ds ++ z :: tl).takeWhile c_isdigit = ds := by
  intro ds
  induction ds with
  | nil => intro _; simp [List.takeWhile_cons, hz]
  | cons d ds ih =>
    intro h
    obtain ⟨h1, h2⟩ := h d (List.mem_cons_self d ds)
    have hd : c_isdigit d = true := by simp [c_isdigit, h1, h2]
    simp only [List.cons_append, List.takeWhile_cons, hd, if_true]
    rw [ih (fun b hb => h b (List.mem_cons_of_mem d hb))]

/-- `strtoimaxModel` on a nonempty digit run within the int64 range reads
exactly the digits and reports their value with no ERANGE. -/
theorem strtoimax_digits (ds : List Byte) (z : Byte) (tl : List Byte)
    (h1 : ds ≠ []) (h2 : ∀ b ∈ ds, 48 ≤ b ∧ b ≤ 57)
    (hz : c_isdigit z = false)
    (h3 : (digitsVal ds : Int) ≤ int64Max) :
    strtoimaxModel (ds ++ z :: tl) = ((digitsVal ds : Int), z :: tl, false) := by
  rcases ds with _ | ⟨d, ds⟩
  · exact absurd rfl h1
  obtain ⟨hd1, hd2⟩ := h2 d (List.mem_cons_self d ds)
  have hd1n : (48 : Nat) ≤ d := hd1
  have hlt : ∀ k : Nat, k < 48 → (d == k) = false := fun k hk =>
    beq_eq_false_iff_ne.mpr (Nat.lt_of_lt_of_le hk hd1n).ne'
  have hsp : c_isspace d = false := by
    unfold c_isspace
    simp [hlt 32 (by norm_num), hlt 9 (by norm_num), hlt 10 (by norm_num),
      hlt 11 (by norm_num), hlt 12 (by norm_num), hlt 13 (by norm_num)]
  have h45 : (d == 45) = false := hlt 45 (by norm_num)
  have h43 : (d == 43) = false := hlt 43 (by norm_num)
  have htw : ((d :: ds) ++ z :: tl).takeWhile c_isdigit = d :: ds :=
    takeWhile_digits z tl hz (d :: ds) h2
  unfold strtoimaxModel
  simp only [List.cons_append, List.dropWhile_cons, hsp, Bool.false_eq_true,
    if_false, List.headD_cons, h45, h43, Bool.or_self, htw]
  rw [← List.cons_append, htw]
  have hne : (d :: ds).isEmpty = false := rfl
  simp only [hne, Bool.false_eq_true, if_false]
  have hnn : ¬ ((digitsVal (d :: ds) : Int) > int64Max) := not_lt.2 h3
  have hmin : ¬ ((digitsVal (d :: ds) : Int) < int64Min) := by
    unfold int64Min
    have h0 : (0 : Int) ≤ (digitsVal (d :: ds) : Int) := Int.natCast_nonneg _
    omega
  simp only [one_mul, if_neg hnn, if_neg hmin]
  have hdr : List.drop (ds.length + 1) (d :: (ds ++ z :: tl)) = z :: tl := by
    rw [List.drop_succ_cons, List.drop_left]
  exact congrArg (fun t => ((digitsVal (d :: ds) : Int), t, false)) hdr

/-- The scan loop of `ucl_lex_number` walks over a digit run, advancing
column and remain by its length. -/
theorem scan_digits (ds : List Byte) (hds : ∀ b ∈ ds, 48 ≤ b ∧ b ≤ 57) :
    ∀ (F : Nat) (r : List Byte) (ln col rem : Nat) (p gD gE nD : Bool),
      ucl_lex_number_scan (ds.length + F) ⟨ds ++ r, ln, col, rem⟩ p gD gE nD
        = ucl_lex_number_scan F ⟨r, ln, col + ds.length, rem - ds.length⟩
            (p && ds.isEmpty) gD gE nD := by
  induction ds with
  | nil => intro F r ln col rem p gD gE nD; simp
  | cons d ds ih =>
    intro F r ln col rem p gD gE nD
    obtain ⟨hd1, hd2⟩ := hds d (List.mem_cons_self d ds)
    have hd1n : (48 : Nat) ≤ d := hd1
    have hdig : c_isdigit d = true := by simp [c_isdigit, hd1, hd2]
    have h10 : (d == 10) = false :=
      beq_eq_false_iff_ne.mpr (Nat.lt_of_lt_of_le (by norm_num) hd1n).ne'
    have hstep : ucl_lex_number_scan (ds.length + F + 1)
          ⟨d :: (ds ++ r), ln, col, rem⟩ p gD gE nD
        = ucl_lex_number_scan (ds.length + F)
          ⟨ds ++ r, ln, col + 1, rem - 1⟩ false gD gE nD := by
      rw [ucl_lex_number_scan]
      simp [hdig, ucl_chunk_skipc, h10]
    have hlen : (d :: ds).length + F = ds.length + F + 1 := by
      simp only [List.length_cons]
      omega
    rw [List.cons_append, hlen, hstep,
      ih (fun b hb => hds b (List.mem_cons_of_mem d hb)) F r ln (col + 1)
        (rem - 1) false gD gE nD]
    have hc : col + 1 + ds.length = col + (d :: ds).length := by
      simp only [List.length_cons]
      omega
    have hr : rem - 1 - ds.length = rem - (d :: ds).length := by
      simp only [List.length_cons]
      omega
    rw [hc, hr]
    simp

/-- `ucl_lex_number` on a nonempty digit run (value within int64) followed
by a byte that is neither digit, dot, exponent, NUL nor an atom end reduces
to the suffix phase standing on that byte, carrying the digits' value. -/
theorem lex_number_digits (ds : List Byte) (z : Byte) (tl : List Byte)
    (ln col rem : Nat) (e : Option UclErrMsg)
    (h1 : ds ≠ []) (h2 : ∀ b ∈ ds, 48 ≤ b ∧ b ≤ 57)
    (hz1 : c_isdigit z = false) (hz2 : (z == 46) = false)
    (hz3 : (z == 101) = false) (hz4 : (z == 69) = false)
    (hz5 : (z == 0) = false) (hz6 : ucl_lex_is_atom_end z = false)
    (h3 : (digitsVal ds : Int) ≤ int64Max) :
    ucl_lex_number ⟨ds ++ z :: tl, ln, col, rem⟩ e
      = ucl_lex_number_suffix (ds ++ z :: tl)
          ⟨z :: tl, ln, col + ds.length, rem - ds.length⟩
          ((digitsVal ds : Int)) 0 false e := by
  rcases ds with _ | ⟨d, ds⟩
  · exact absurd rfl h1
  obtain ⟨hd1, hd2⟩ := h2 d (List.mem_cons_self d ds)
  have hd1n : (48 : Nat) ≤ d := hd1
  have h45 : (d == 45) = false :=
    beq_eq_false_iff_ne.mpr (Nat.lt_of_lt_of_le (by norm_num) hd1n).ne'
  have hhead : chHead ⟨(d :: ds) ++ z :: tl, ln, col, rem⟩ = d := rfl
  rw [ucl_lex_number]
  simp only [hhead, h45, Bool.false_eq_true, if_false, bne, Bool.not_false]
  have hflen : (⟨(d :: ds) ++ z :: tl, ln, col, rem⟩ : UclChunk).rest.length + 1
      = (d :: ds).length + ((z :: tl).length + 1) := by
    simp
    omega
  rw [hflen]
  rw [scan_digits (d :: ds) h2 ((z :: tl).length + 1) (z :: tl) ln col rem
    true false false false]
  have hone : ucl_lex_number_scan ((z :: tl).length + 1)
        ⟨z :: tl, ln, col + (d :: ds).length, rem - (d :: ds).length⟩
        (true && (d :: ds).isEmpty) false false false
      = UclScanRes.done
          ⟨z :: tl, ln, col + (d :: ds).length, rem - (d :: ds).length⟩
          false := by
    rw [ucl_lex_number_scan]
    simp [hz1, hz2, hz3, hz4]
  rw [hone]
  have hsm : strtoimaxModel
        ((⟨(d :: ds) ++ z :: tl, ln, col, rem⟩ : UclChunk).rest)
      = ((digitsVal (d :: ds) : Int), z :: tl, false) :=
    strtoimax_digits (d :: ds) z tl h1 h2 hz1 h3
  simp only [ucl_chunk_save_state] at hsm ⊢
  rw [hsm]
  unfold ucl_lex_number.ucl_lex_number_tail
  simp [hz5, hz6]

/-- C9 (amended): when the unit suffix matches no table entry,
`ucl_lex_number` restores only the chunk's position (`chunk->pos = c`):
the returned chunk has the saved byte sequence back, but line, column and
remain keep the values advanced past the digits; the atom is then parsed
as a string, as the parse of `k = 10gx;` shows. -/
theorem C9_cursor_only_restore :
    (∀ (ds tl : List Byte) (ln col rem : Nat) (e : Option UclErrMsg),
      ds ≠ [] → (∀ b ∈ ds, 48 ≤ b ∧ b ≤ 57) →
      (digitsVal ds : Int) ≤ int64Max →
      ucl_lex_number ⟨ds ++ 122 :: tl, ln, col, rem⟩ e
        = { success := false,
            chunk := ⟨ds ++ 122 :: tl, ln, col + ds.length, rem - ds.length⟩,
            err := e }) ∧
    (hget c1strP.heap 1).type = UclType.str ∧
    (hget c1strP.heap 1).sv = cstr ['1', '0', 'g', 'x'] := by
  refine ⟨?_, by decide, by decide⟩
  intro ds tl ln col rem e h1 h2 h3
  rw [lex_number_digits ds 122 tl ln col rem e h1 h2 (by decide) (by decide)
    (by decide) (by decide) (by decide) (by decide) h3]
  simp [ucl_lex_number_suffix]

/-- C9 counterexample: lexing the number in `10z;` fails on the suffix
`z` and returns the chunk with the full rest restored but column 2 and
remain 2 — not the chunk saved before the number (column 0, remain 4), so
the full saved tuple is NOT restored. -/
theorem C9_counterexample :
    ucl_lex_number ⟨cstr ['1', '0', 'z', ';'], 1, 0, 4⟩ none
      = { success := false,
          chunk := ⟨cstr ['1', '0', 'z', ';'], 1, 2, 2⟩, err := none } ∧
    (ucl_lex_number ⟨cstr ['1', '0', 'z', ';'], 1, 0, 4⟩ none).chunk
      ≠ ⟨cstr ['1', '0', 'z', ';'], 1, 0, 4⟩ := by
  exact ⟨by decide, by decide⟩

/-- The two spellings a byte can have under `c_tolower`. -/
theorem tolower_cases (b t : Byte) (hb : c_tolower b = t) : b = t ∨ b = t - 32 := by
  by_cases hc : 65 ≤ b ∧ b ≤ 90
  · right
    have he : b + 32 = t := by
      have : c_tolower b = b + 32 := by simp [c_tolower, hc]
      rw [← this, hb]
    exact Nat.eq_sub_of_add_eq he
  · left
    have : c_tolower b = b := by simp [c_tolower, hc]
    rw [← this, hb]

/-- C1 (amended): the suffix table of `ucl_lex_number`, universally over
any digit run within int64 and both suffix spellings via `c_tolower`:
`ms` divides by 1000 yielding a time, `s` yields time in seconds, `min`
multiplies by 60, `h`/`d`/`w` multiply by 3600/86400/604800 yielding a
time, `y` multiplies by 220752000 (the source computes 60*60*24*7*365,
not 31536000), `k`/`m`/`g` multiply by 1000/1000000/1000000000, and
`kb`/`mb`/`gb` (which need a byte after the suffix) multiply by
1024/1048576/1073741824; concretely `10ms;` is time 0.010, `2kb;` is
integer 2048, `1.5h;` is time 5400, `10G` is integer 10000000000, and
`k = 10gx;` stores the string `10gx`. -/
theorem C1_suffix_table :
    (∀ (ds : List Byte) (ln col rem : Nat) (e : Option UclErrMsg),
      ds ≠ [] → (∀ x ∈ ds, 48 ≤ x ∧ x ≤ 57) →
      (digitsVal ds : Int) ≤ int64Max →
      (∀ b b2 : Byte, c_tolower b = 109 → c_tolower b2 = 115 →
        ucl_lex_number ⟨ds ++ [b, b2, 59], ln, col, rem⟩ e
          = { success := true,
              chunk := ⟨[59], ln, col + ds.length + 2, rem - ds.length - 2⟩,
              err := e, vtype := .time,
              vdv := (digitsVal ds : ℚ) / 1000 }) ∧
      (∀ b : Byte, c_tolower b = 115 →
        ucl_lex_number ⟨ds ++ [b], ln, col, rem⟩ e
          = { success := true,
              chunk := ⟨[], ln, col + ds.length + 1, rem - ds.length - 1⟩,
              err := e, vtype := .time, vdv := (digitsVal ds : ℚ) }) ∧
      (∀ b1 b2 b3 : Byte, c_tolower b1 = 109 → c_tolower b2 = 105 →
          c_tolower b3 = 110 →
        ucl_lex_number ⟨ds ++ [b1, b2, b3], ln, col, rem⟩ e
          = { success := true,
              chunk := ⟨[], ln, col + ds.length + 3, rem - ds.length - 3⟩,
              err := e, vtype := .time,
              vdv := (digitsVal ds : ℚ) * 60 }) ∧
      (∀ b : Byte, c_tolower b = 104 →
        ucl_lex_number ⟨ds ++ [b], ln, col, rem⟩ e
          = { success := true,
              chunk := ⟨[], ln, col + ds.length + 1, rem - ds.length - 1⟩,
              err := e, vtype := .time, vdv := (digitsVal ds : ℚ) * 3600 }) ∧
      (∀ b : Byte, c_tolower b = 100 →
        ucl_lex_number ⟨ds ++ [b], ln, col, rem⟩ e
          = { success := true,
              chunk := ⟨[], ln, col + ds.length + 1, rem - ds.length - 1⟩,
              err := e, vtype := .time, vdv := (digitsVal ds : ℚ) * 86400 }) ∧
      (∀ b : Byte, c_tolower b = 119 →
        ucl_lex_number ⟨ds ++ [b], ln, col, rem⟩ e
          = { success := true,
              chunk := ⟨[], ln, col + ds.length + 1, rem - ds.length - 1⟩,
              err := e, vtype := .time, vdv := (digitsVal ds : ℚ) * 604800 }) ∧
      (∀ b : Byte, c_tolower b = 121 →
        ucl_lex_number ⟨ds ++ [b], ln, col, rem⟩ e
          = { success := true,
              chunk := ⟨[], ln, col + ds.length + 1, rem - ds.length - 1⟩,
              err := e, vtype := .time,
              vdv := (digitsVal ds : ℚ) * 220752000 }) ∧
      (∀ b : Byte, c_tolower b = 107 →
        ucl_lex_number ⟨ds ++ [b], ln, col, rem⟩ e
          = { success := true,
              chunk := ⟨[], ln, col + ds.length + 1, rem - ds.length - 1⟩,
              err := e, vtype := .int, viv := (digitsVal ds : Int) * 1000 }) ∧
      (∀ b : Byte, c_tolower b = 109 →
        ucl_lex_number ⟨ds ++ [b], ln, col, rem⟩ e
          = { success := true,
              chunk := ⟨[], ln, col + ds.length + 1, rem - ds.length - 1⟩,
              err := e, vtype := .int,
              viv := (digitsVal ds : Int) * 1000000 }) ∧
      (∀ b : Byte, c_tolower b = 103 →
        ucl_lex_number ⟨ds ++ [b], ln, col, rem⟩ e
          = { success := true,
              chunk := ⟨[], ln, col + ds.length + 1, rem - ds.length - 1⟩,
              err := e, vtype := .int,
              viv := (digitsVal ds : Int) * 1000000000 }) ∧
      (∀ b b2 : Byte, c_tolower b = 107 → c_tolower b2 = 98 →
        ucl_lex_number ⟨ds ++ [b, b2, 59], ln, col, rem⟩ e
          = { success := true,
              chunk := ⟨[59], ln, col + ds.length + 2, rem - ds.length - 2⟩,
              err := e, vtype := .int, viv := (digitsVal ds : Int) * 1024 }) ∧
      (∀ b b2 : Byte, c_tolower b = 109 → c_tolower b2 = 98 →
        ucl_lex_number ⟨ds ++ [b, b2, 59], ln, col, rem⟩ e
          = { success := true,
              chunk := ⟨[59], ln, col + ds.length + 2, rem - ds.length - 2⟩,
              err := e, vtype := .int,
              viv := (digitsVal ds : Int) * 1048576 }) ∧
      (∀ b b2 : Byte, c_tolower b = 103 → c_tolower b2 = 98 →
        ucl_lex_number ⟨ds ++ [b, b2, 59], ln, col, rem⟩ e
          = { success := true,
              chunk := ⟨[59], ln, col + ds.length + 2, rem - ds.length - 2⟩,
              err := e, vtype := .int,
              viv := (digitsVal ds : Int) * 1073741824 })) ∧
    ucl_lex_number ⟨cstr ['1', '0', 'm', 's', ';'], 1, 0, 5⟩ none
      = { success := true, chunk := ⟨[59], 1, 4, 1⟩, err := none,
          vtype := .time, vdv := 1 / 100 } ∧
    ucl_lex_number ⟨cstr ['2', 'k', 'b', ';'], 1, 0, 4⟩ none
      = { success := true, chunk := ⟨[59], 1, 3, 1⟩, err := none,
          vtype := .int, viv := 2048 } ∧
    ucl_lex_number ⟨cstr ['1', '.', '5', 'h', ';'], 1, 0, 5⟩ none
      = { success := true, chunk := ⟨[59], 1, 4, 1⟩, err := none,
          vtype := .time, vdv := 5400 } ∧
    ucl_lex_number ⟨cstr ['1', '0', 'G'], 1, 0, 3⟩ none
      = { success := true, chunk := ⟨[], 1, 3, 0⟩, err := none,
          vtype := .int, viv := 10000000000 } ∧
    (hget c1strP.heap 1).type = UclType.str ∧
    (hget c1strP.heap 1).sv = cstr ['1', '0', 'g', 'x'] := by
  have h10ms : ucl_lex_number ⟨cstr ['1', '0', 'm', 's', ';'], 1, 0, 5⟩ none
      = { success := true, chunk := ⟨[59], 1, 4, 1⟩, err := none,
          vtype := .time, vdv := 1 / 100 } := by
    have h := lex_number_digits [49, 48] 109 [115, 59] 1 0 5 none (by decide)
      (by decide) (by decide) (by decide) (by decide) (by decide) (by decide)
      (by decide) (by decide)
    simp only [List.cons_append, List.nil_append] at h
    show ucl_lex_number ⟨[49, 48, 109, 115, 59], 1, 0, 5⟩ none = _
    rw [h]
    simp [ucl_lex_number_suffix, ucl_chunk_skipc, chAt, ucl_lex_is_atom_end,
      ucl_test_value_end, c_tolower, digitsVal]
    norm_num
  have h15h : ucl_lex_number ⟨cstr ['1', '.', '5', 'h', ';'], 1, 0, 5⟩ none
      = { success := true, chunk := ⟨[59], 1, 4, 1⟩, err := none,
          vtype := .time, vdv := 5400 } := by
    have hov : |(1 : ℚ) + 5 / 10| < dblOverflow := by
      rw [abs_of_nonneg (by norm_num : (0 : ℚ) ≤ 1 + 5 / 10), dblOverflow]
      norm_num
    simp [ucl_lex_number, ucl_lex_number_scan, ucl_chunk_skipc, chHead, cstr,
      strtodModel, ucl_chunk_save_state, ucl_lex_number_suffix,
      ucl_lex_is_atom_end, ucl_test_value_end, c_isdigit, c_isspace, chAt,
      ucl_lex_num_multiplier, ucl_lex_time_multiplier, c_tolower, digitsVal,
      ucl_lex_number.ucl_lex_number_tail]
    rw [if_neg (not_le.mpr hov)]
    simp only [LexNumOut.mk.injEq]
    norm_num
  refine ⟨?_, h10ms, by decide, h15h, by decide, by decide, by decide⟩
  intro ds ln col rem e h1 h2 h3
  refine ⟨?_, ?_, ?_, ?_, ?_, ?_, ?_, ?_, ?_, ?_, ?_, ?_, ?_⟩
  · intro b b2 hb hb2
    rcases tolower_cases b 109 hb with rfl | rfl <;>
      rcases tolower_cases b2 115 hb2 with rfl | rfl <;>
      (rw [lex_number_digits ds _ _ ln col rem e h1 h2 (by decide) (by decide)
         (by decide) (by decide) (by decide) (by decide) h3]
       simp [ucl_lex_number_suffix, ucl_chunk_skipc, chAt, ucl_lex_is_atom_end,
         ucl_test_value_end, c_tolower, ucl_lex_num_multiplier,
         ucl_lex_time_multiplier])
    all_goals first
    | omega
    | (left ; decide)
    | decide
  · intro b hb
    rcases tolower_cases b 115 hb with rfl | rfl <;>
      (rw [lex_number_digits ds _ _ ln col rem e h1 h2 (by decide) (by decide)
         (by decide) (by decide) (by decide) (by decide) h3]
       simp [ucl_lex_number_suffix, ucl_chunk_skipc, chAt, ucl_lex_is_atom_end,
         ucl_test_value_end, c_tolower, ucl_lex_num_multiplier,
         ucl_lex_time_multiplier])
    all_goals first
    | omega
    | (left ; decide)
    | decide
  · intro b1 b2 b3 hb1 hb2 hb3
    rcases tolower_cases b1 109 hb1 with rfl | rfl <;>
      rcases tolower_cases b2 105 hb2 with rfl | rfl <;>
      rcases tolower_cases b3 110 hb3 with rfl | rfl <;>
      (rw [lex_number_digits ds _ _ ln col rem e h1 h2 (by decide) (by decide)
         (by decide) (by decide) (by decide) (by decide) h3]
       simp [ucl_lex_number_suffix, ucl_chunk_skipc, chAt, ucl_lex_is_atom_end,
         ucl_test_value_end, c_tolower, ucl_lex_num_multiplier,
         ucl_lex_time_multiplier])
    all_goals first
    | omega
    | (left ; decide)
    | decide
  · intro b hb
    rcases tolower_cases b 104 hb with rfl | rfl <;>
      (rw [lex_number_digits ds _ _ ln col rem e h1 h2 (by decide) (by decide)
         (by decide) (by decide) (by decide) (by decide) h3]
       simp [ucl_lex_number_suffix, ucl_chunk_skipc, chAt, ucl_lex_is_atom_end,
         ucl_test_value_end, c_tolower, ucl_lex_num_multiplier,
         ucl_lex_time_multiplier])
    all_goals first
    | omega
    | (left ; decide)
    | decide
  · intro b hb
    rcases tolower_cases b 100 hb with rfl | rfl <;>
      (rw [lex_number_digits ds _ _ ln col rem e h1 h2 (by decide) (by decide)
         (by decide) (by decide) (by decide) (by decide) h3]
       simp [ucl_lex_number_suffix, ucl_chunk_skipc, chAt, ucl_lex_is_atom_end,
         ucl_test_value_end, c_tolower, ucl_lex_num_multiplier,
         ucl_lex_time_multiplier])
    all_goals first
    | omega
    | (left ; decide)
    | decide
  · intro b hb
    rcases tolower_cases b 119 hb with rfl | rfl <;>
      (rw [lex_number_digits ds _ _ ln col rem e h1 h2 (by decide) (by decide)
         (by decide) (by decide) (by decide) (by decide) h3]
       simp [ucl_lex_number_suffix, ucl_chunk_skipc, chAt, ucl_lex_is_atom_end,
         ucl_test_value_end, c_tolower, ucl_lex_num_multiplier,
         ucl_lex_time_multiplier])
    all_goals first
    | omega
    | (left ; decide)
    | decide
  · intro b hb
    rcases tolower_cases b 121 hb with rfl | rfl <;>
      (rw [lex_number_digits ds _ _ ln col rem e h1 h2 (by decide) (by decide)
         (by decide) (by decide) (by decide) (by decide) h3]
       simp [ucl_lex_number_suffix, ucl_chunk_skipc, chAt, ucl_lex_is_atom_end,
         ucl_test_value_end, c_tolower, ucl_lex_num_multiplier,
         ucl_lex_time_multiplier])
    all_goals first
    | omega
    | (left ; decide)
    | decide
  · intro b hb
    rcases tolower_cases b 107 hb with rfl | rfl <;>
      (rw [lex_number_digits ds _ _ ln col rem e h1 h2 (by decide) (by decide)
         (by decide) (by decide) (by decide) (by decide) h3]
       simp [ucl_lex_number_suffix, ucl_chunk_skipc, chAt, ucl_lex_is_atom_end,
         ucl_test_value_end, c_tolower, ucl_lex_num_multiplier,
         ucl_lex_time_multiplier])
    all_goals first
    | omega
    | (left ; decide)
    | decide
  · intro b hb
    rcases tolower_cases b 109 hb with rfl | rfl <;>
      (rw [lex_number_digits ds _ _ ln col rem e h1 h2 (by decide) (by decide)
         (by decide) (by decide) (by decide) (by decide) h3]
       simp [ucl_lex_number_suffix, ucl_chunk_skipc, chAt, ucl_lex_is_atom_end,
         ucl_test_value_end, c_tolower, ucl_lex_num_multiplier,
         ucl_lex_time_multiplier])
    all_goals first
    | omega
    | (left ; decide)
    | decide
  · intro b hb
    rcases tolower_cases b 103 hb with rfl | rfl <;>
      (rw [lex_number_digits ds _ _ ln col rem e h1 h2 (by decide) (by decide)
         (by decide) (by decide) (by decide) (by decide) h3]
       simp [ucl_lex_number_suffix, ucl_chunk_skipc, chAt, ucl_lex_is_atom_end,
         ucl_test_value_end, c_tolower, ucl_lex_num_multiplier,
         ucl_lex_time_multiplier])
    all_goals first
    | omega
    | (left ; decide)
    | decide
  · intro b b2 hb hb2
    rcases tolower_cases b 107 hb with rfl | rfl <;>
      rcases tolower_cases b2 98 hb2 with rfl | rfl <;>
      (rw [lex_number_digits ds _ _ ln col rem e h1 h2 (by decide) (by decide)
         (by decide) (by decide) (by decide) (by decide) h3]
       simp [ucl_lex_number_suffix, ucl_chunk_skipc, chAt, ucl_lex_is_atom_end,
         ucl_test_value_end, c_tolower, ucl_lex_num_multiplier,
         ucl_lex_time_multiplier])
    all_goals first
    | omega
    | (left ; decide)
    | decide
  · intro b b2 hb hb2
    rcases tolower_cases b 109 hb with rfl | rfl <;>
      rcases tolower_cases b2 98 hb2 with rfl | rfl <;>
      (rw [lex_number_digits ds _ _ ln col rem e h1 h2 (by decide) (by decide)
         (by decide) (by decide) (by decide) (by decide) h3]
       simp [ucl_lex_number_suffix, ucl_chunk_skipc, chAt, ucl_lex_is_atom_end,
         ucl_test_value_end, c_tolower, ucl_lex_num_multiplier,
         ucl_lex_time_multiplier])
    all_goals first
    | omega
    | (left ; decide)
    | decide
  · intro b b2 hb hb2
    rcases tolower_cases b 103 hb with rfl | rfl <;>
      rcases tolower_cases b2 98 hb2 with rfl | rfl <;>
      (rw [lex_number_digits ds _ _ ln col rem e h1 h2 (by decide) (by decide)
         (by decide) (by decide) (by decide) (by decide) h3]
       simp [ucl_lex_number_suffix, ucl_chunk_skipc, chAt, ucl_lex_is_atom_end,
         ucl_test_value_end, c_tolower, ucl_lex_num_multiplier,
         ucl_lex_time_multiplier])
    all_goals first
    | omega
    | (left ; decide)
    | decide

/-- C1 counterexample: `1y` lexes to a time value of 220752000, not the
claim's 31536000 (the source multiplies by 60*60*24*7*365, a week times
365); and the bare `10ms` (with no byte after `s`) lexes as integer
10000000 via the `m` multiplier, not as time 0.010. -/
theorem C1_counterexample :
    ucl_lex_number ⟨cstr ['1', 'y'], 1, 0, 2⟩ none
      = { success := true, chunk := ⟨[], 1, 2, 0⟩, err := none,
          vtype := .time, vdv := 220752000 } ∧
    (ucl_lex_number ⟨cstr ['1', 'y'], 1, 0, 2⟩ none).vdv ≠ 31536000 ∧
    (ucl_lex_number ⟨cstr ['1', '0', 'm', 's'], 1, 0, 4⟩ none).vtype
      = UclType.int ∧
    (ucl_lex_number ⟨cstr ['1', '0', 'm', 's'], 1, 0, 4⟩ none).viv
      = 10000000 := by
  have h1y : ucl_lex_number ⟨cstr ['1', 'y'], 1, 0, 2⟩ none
      = { success := true, chunk := ⟨[], 1, 2, 0⟩, err := none,
          vtype := .time, vdv := 220752000 } := by
    have h := lex_number_digits [49] 121 [] 1 0 2 none (by decide)
      (by decide) (by decide) (by decide) (by decide) (by decide) (by decide)
      (by decide) (by decide)
    simp only [List.cons_append, List.nil_append] at h
    show ucl_lex_number ⟨[49, 121], 1, 0, 2⟩ none = _
    rw [h]
    simp [ucl_lex_number_suffix, ucl_chunk_skipc, chAt, ucl_lex_is_atom_end,
      ucl_test_value_end, c_tolower, digitsVal, ucl_lex_time_multiplier]
  refine ⟨h1y, ?_, by decide, by decide⟩
  rw [h1y]
  norm_num
